import Mathlib

/-!
  Verification of the Scrivner workflow-sync pipeline.

  Shallow embedding of the synchronization pipeline:
  - sync/validate.ts (`validate`) — structural validator for WorkflowDefs,
  - sync/merge.ts    (`merge`)    — pure reconciliation of a scan diff into the graph,
  - sync/parse.ts    (`parseSwiftFile`) — heuristic Swift source extraction,
  - sync/scan.ts     (`scan`)     — git-driven change detection (effects as an oracle),
  - daemon.ts        (`pollCycle`) — the polling scheduler (effects as an oracle).

  Conventions of the embedding:
  - JS strings are modelled by Lean `String`; character-level JS operations
    (`startsWith`, `slice`, `charAt`) are modelled on `String.data`
    (equivalent for the ASCII data handled by this program).
  - TypeScript `string | null` fields are `Option String` (`none` = `null`);
    optional fields (`deprecated?`, `edgeLabels?`, `_needsReview?`) are modelled
    with their JS-falsy default (`false`, `none`).
  - JS `Set`/`Map` are modelled by lists: `Set` membership is list membership
    (deduplication affects only error multiplicity, never presence), `Map`
    built from an entry list resolves duplicate keys to the last entry,
    which `parsedByPath` reproduces with a left fold.
  - `JSON.parse(JSON.stringify(x))` (deep clone) is the identity on the pure
    JSON-safe data involved, so `merge` operates on its argument directly;
    mutation is not representable, matching the clone-then-mutate source.
-/

namespace Scrivner

/-! ## JS string primitives -/

/-- JS `a.startsWith(p)`, character-level. -/
def startsWith (s p : String) : Bool :=
  p.data.isPrefixOf s.data

/-- JS `s.slice(n)` (drop the first `n` characters). -/
def sliceFrom (s : String) (n : Nat) : String :=
  String.mk (s.data.drop n)

/-- Split a character list on a separator character; always at least one
group, empty groups preserved — the semantics of JS `split` with a
one-character separator. -/
def splitOnChar (sep : Char) (cs : List Char) : List (List Char) :=
  cs.foldr
    (fun c acc =>
      match acc with
      | [] => [[c]]
      | g :: gs => if c == sep then [] :: g :: gs else (c :: g) :: gs)
    [[]]

/-- JS `s.split(sep)` for a one-character separator. -/
def jsSplitChar (sep : Char) (s : String) : List String :=
  (splitOnChar sep s.data).map String.mk

/-- JS `Array.prototype.join`. -/
def jsJoin (sep : String) : List String → String
  | [] => ""
  | x :: xs => xs.foldl (fun acc y => acc ++ sep ++ y) x

/-- JS `s.trim()` (ASCII whitespace). -/
def jsTrim (s : String) : String :=
  String.mk (((s.data.dropWhile fun c => c == ' ' || c == '\t' || c == '\n' ||
      c == '\r' || c == '\x0b' || c == '\x0c').reverse.dropWhile
    fun c => c == ' ' || c == '\t' || c == '\n' ||
      c == '\r' || c == '\x0b' || c == '\x0c').reverse)

/-- Decimal digits of a natural number (fuel-structured so that it reduces
in the kernel; the fuel is always sufficient). -/
def natToCharsAux : Nat → Nat → List Char → List Char
  | 0, _, acc => acc
  | fuel + 1, n, acc =>
    let d := Char.ofNat (48 + n % 10)
    if n < 10 then d :: acc else natToCharsAux fuel (n / 10) (d :: acc)

/-- Decimal rendering of a natural number. -/
def natToString (n : Nat) : String :=
  String.mk (natToCharsAux (n + 1) n [])

/-- Decimal rendering of an integer — JS number-to-string interpolation for
the integral values occurring here. -/
def intToString : Int → String
  | .ofNat n => natToString n
  | .negSucc n => "-" ++ natToString (n + 1)

/-! ## Data model (sync/merge.ts `Step`, `Journey`, `WorkflowDefs`, records) -/

/-- `Step.type`: `"action" | "display" | "decision" | "input" | "system"`. -/
inductive StepType where
  | action | display | decision | input | system
deriving DecidableEq, Repr

/-- One workflow node (merge.ts `Step`).
`deprecated?: boolean` and `_needsReview?: boolean` are optional in TS and
falsy when absent, hence plain `Bool` here; `edgeLabels?: string[]` keeps its
absent state as `none` (note: a present-but-empty array is JS-truthy, which
`some []` preserves). -/
structure Step where
  id : String
  label : String
  screen : String
  swiftFile : Option String
  type : StepType
  phase : String
  next : List String
  edgeLabels : Option (List String) := none
  deprecated : Bool := false
  needsReview : Bool := false
deriving DecidableEq, Repr

/-- One workflow container (merge.ts `Journey`); the optional cosmetic
`group?` field is read by no sync code and is omitted. -/
structure Journey where
  id : String
  name : String
  description : String
  steps : List Step
deriving DecidableEq, Repr

/-- The persisted graph document (merge.ts `WorkflowDefs`). -/
structure WorkflowDefs where
  version : Option String := none
  generatedAt : Option String := none
  journeys : List Journey
deriving DecidableEq, Repr

/-- merge.ts `ChangeRecord`. -/
structure ChangeRecord where
  action : String
  journeyId : String
  stepId : String
  detail : String
deriving DecidableEq, Repr

/-- merge.ts `MergeResult`. -/
structure MergeResult where
  json : WorkflowDefs
  changes : List ChangeRecord
  reviewCount : Nat
deriving DecidableEq, Repr

/-- scan.ts `ChangedFile`. The `status` field holds the result of the JS
`charAt(0)` on the git status code — a one-character string (or empty). -/
structure ChangedFile where
  path : String
  content : String
  diff : String
  status : String
deriving DecidableEq, Repr

/-- scan.ts `ScanResult`. -/
structure ScanResult where
  currentSHA : String
  newFiles : List ChangedFile
  removedFiles : List String
  modifiedFiles : List ChangedFile
deriving DecidableEq, Repr

/-! ## sync/validate.ts -/

/-- validate.ts `ValidationResult`. -/
structure ValidationResult where
  ok : Bool
  errors : List String
deriving DecidableEq, Repr

/-- The `"${journey.id}::${step.id}"` key template used by the validator. -/
def mkKey (jid sid : String) : String :=
  jid ++ "::" ++ sid

/-- validate.ts lines 39-47: the set of keys of non-deprecated steps of the
previous graph (a JS `Set`; modelled as the insertion-ordered list, since the
validator only iterates it and tests membership). -/
def currentStepKeys (current : WorkflowDefs) : List String :=
  current.journeys.flatMap fun j =>
    (j.steps.filter fun s => !s.deprecated).map fun s => mkKey j.id s.id

/-- Accumulator threaded through the validator's journey loop:
the growing `globalStepIds` set and the growing `errors` array. -/
structure VAcc where
  globalIds : List String
  errors : List String
deriving Repr

/-- validate.ts lines 67-104, one iteration of `for (const step of journey.steps)`.
Checks that can never fire on well-typed data (`swiftFile === undefined`,
`!step.type`, invalid enum `type`, `!Array.isArray(step.next)`) are omitted:
in this model those fields always carry a value of the declared type. -/
def stepChecks (jid : String) (journeyStepIds : List String) (acc : VAcc)
    (step : Step) : VAcc :=
  if step.id = "" then
    -- `if (!step.id) { errors.push(...); continue; }` — skips the rest
    { acc with errors := acc.errors ++
        ["Journey \"" ++ jid ++ "\": step missing id"] }
  else
    let sPrefix := "Journey \"" ++ jid ++ "\" step \"" ++ step.id ++ "\""
    let labelErr := if step.label = "" then [sPrefix ++ ": missing label"] else []
    let screenErr := if step.screen = "" then [sPrefix ++ ": missing screen"] else []
    let globalKey := mkKey jid step.id
    let dupErr :=
      if acc.globalIds.contains globalKey then
        [sPrefix ++ ": duplicate step ID in journey \"" ++ jid ++ "\""]
      else []
    let globalIds :=
      if acc.globalIds.contains globalKey then acc.globalIds
      else acc.globalIds ++ [globalKey]
    let refErrs := step.next.filterMap fun nextId =>
      if journeyStepIds.contains nextId then none
      else some (sPrefix ++ ": next ref \"" ++ nextId ++ "\" not found in journey")
    { globalIds := globalIds
      errors := acc.errors ++ (labelErr ++ screenErr ++ dupErr ++ refErrs) }

/-- validate.ts lines 106-114 (check 9): previously non-deprecated step keys
whose journey-id prefix matches this incoming journey must still have their
step id in the journey. `key.startsWith(journey.id + "::")` and
`key.slice(journey.id.length + 2)` are modelled character-precisely. -/
def removedErrs (currentKeys : List String) (jid : String)
    (journeyStepIds : List String) : List String :=
  currentKeys.filterMap fun key =>
    if startsWith key (jid ++ "::") then
      let stepId := sliceFrom key (jid.length + 2)
      if journeyStepIds.contains stepId then none
      else some ("Journey \"" ++ jid ++ "\": step \"" ++ stepId ++
        "\" was removed (use deprecated:true instead)")
    else none

/-- validate.ts lines 52-115, one iteration of `for (const journey of incoming.journeys)`.
The `typeof journey.description !== "string"` and `!Array.isArray(journey.steps)`
checks never fire on well-typed data and are omitted (so the `continue` on a
missing steps array is unreachable). -/
def journeyChecks (currentKeys : List String) (acc : VAcc) (j : Journey) : VAcc :=
  let jid := j.id
  let idErr := if jid = "" then ["Journey missing id"] else []
  let nameErr := if j.name = "" then ["Journey \"" ++ jid ++ "\": missing name"] else []
  let journeyStepIds := j.steps.map (·.id)
  let acc1 : VAcc := { acc with errors := acc.errors ++ (idErr ++ nameErr) }
  let acc2 := j.steps.foldl (stepChecks jid journeyStepIds) acc1
  { acc2 with errors := acc2.errors ++ removedErrs currentKeys jid journeyStepIds }

/-- sync/validate.ts `validate(current, incoming)`.
In this model `incoming.journeys` is always a list, so the
`!Array.isArray(incoming.journeys)` early return is unreachable and omitted;
the final loop over vanished current journeys (lines 117-123) has an empty
body in the source and contributes nothing. -/
def validate (current incoming : WorkflowDefs) : ValidationResult :=
  let currCount : Int := current.journeys.length
  let newCount : Int := incoming.journeys.length
  let delta := newCount - currCount
  let addErr :=
    if delta > 3 then
      ["Too many journeys added in one cycle: +" ++ intToString delta ++ " (max +3)"]
    else []
  let remErr :=
    if delta < -1 then
      ["Too many journeys removed in one cycle: " ++ intToString delta ++ " (max -1)"]
    else []
  let acc := incoming.journeys.foldl (journeyChecks (currentStepKeys current))
    { globalIds := [], errors := addErr ++ remErr }
  { ok := acc.errors.isEmpty, errors := acc.errors }

/-! ## sync/parse.ts data (needed by merge) -/

/-- parse.ts `NavEdge`. -/
structure NavEdge where
  destination : String
  mechanism : String
deriving DecidableEq, Repr

/-- parse.ts `ParsedView`. -/
structure ParsedView where
  structName : String
  filePath : String
  presentsTo : List NavEdge
  inferredType : StepType
deriving DecidableEq, Repr

/-! ## sync/merge.ts helpers -/

/-- merge.ts `slugify`, step 1: `replace(/([A-Z])/g, "-$1")` —
a dash inserted before every ASCII uppercase letter. -/
def slugDashUpper (cs : List Char) : List Char :=
  cs.flatMap fun c => if c.isUpper then ['-', c] else [c]

/-- merge.ts `slugify`, step 4: `replace(/[^a-z0-9-]/g, "-")`. -/
def slugPunct (cs : List Char) : List Char :=
  cs.map fun c => if c.isLower || c.isDigit || c == '-' then c else '-'

/-- merge.ts `slugify`, step 5 (collapse dash runs to a single dash) —
every maximal run of dashes becomes a single dash. -/
def collapseDashes (cs : List Char) : List Char :=
  cs.foldr (fun c acc =>
    if c = '-' ∧ acc.head? = some '-' then acc else c :: acc) []

/-- merge.ts `slugify`, steps 3 and 6: strip a single leading
dash (step 3) and, via step 6, also a single trailing dash. -/
def dropLeadDash (cs : List Char) : List Char :=
  match cs with
  | '-' :: rest => rest
  | l => l

/-- merge.ts `slugify` (lines 162-170). -/
def slugify (name : String) : String :=
  let s1 := slugDashUpper name.data
  let s2 := s1.map Char.toLower
  let s3 := dropLeadDash s2
  let s4 := slugPunct s3
  let s5 := collapseDashes s4
  let s6 := dropLeadDash s5
  let s7 := if s6.getLast? = some '-' then s6.dropLast else s6
  String.mk s7

/-- merge.ts `assignJourney` (lines 173-207): container for a new file. -/
def assignJourney (filePath : String) (structName : String) (parsedView : ParsedView)
    (defs : WorkflowDefs) : String :=
  if startsWith filePath "ExampleApp/Sources/UI/Onboarding/" then "first-launch"
  else if startsWith filePath "ExampleAppShare/" then "capture-via-share"
  else if startsWith filePath "ExampleAppAction/" then "capture-via-action"
  else
    -- lines 185-195: an existing step whose in-journey resolved target
    -- has `screen === structName`
    match defs.journeys.find? (fun journey =>
      journey.steps.any fun step =>
        step.next.any fun nextId =>
          match journey.steps.find? (fun s => s.id == nextId) with
          | some nextStep => nextStep.screen == structName
          | none => false) with
    | some journey => journey.id
    | none =>
      -- lines 198-204: the parsed view presents to an existing step's screen
      match defs.journeys.find? (fun journey =>
        journey.steps.any fun step =>
          step.screen != "" && parsedView.presentsTo.any fun e =>
            e.destination == step.screen) with
      | some journey => journey.id
      | none => "unassigned"

/-- merge.ts lines 214-217: journey display name from the id
(`split("-")`, capitalize each word, `join(" ")`). -/
def capitalizeWord (w : String) : String :=
  match w.data with
  | [] => ""
  | c :: cs => String.mk (c.toUpper :: cs)

/-- merge.ts `ensureJourney` (lines 209-224), returning the updated defs;
the journey object handed back in the source is recovered by id below. -/
def ensureJourney (defs : WorkflowDefs) (journeyId : String) : WorkflowDefs :=
  if defs.journeys.any (fun j => j.id == journeyId) then defs
  else
    { defs with journeys := defs.journeys ++
        [{ id := journeyId
           name := jsJoin " " ((jsSplitChar '-' journeyId).map capitalizeWord)
           description := "Auto-generated journey"
           steps := [] }] }

/-- merge.ts `findStepByFile` on a journey list: first journey (then first
step) whose `swiftFile === filePath`. -/
def findStepByFileL (js : List Journey) (filePath : String) :
    Option (Journey × Step) :=
  js.findSome? fun journey =>
    (journey.steps.find? fun step => step.swiftFile == some filePath).map
      fun step => (journey, step)

/-- merge.ts `findStepByFile` (lines 227-237). -/
def findStepByFile (defs : WorkflowDefs) (filePath : String) :
    Option (Journey × Step) :=
  findStepByFileL defs.journeys filePath

/-- merge.ts `resolveNext` (lines 240-252): resolve each parsed edge's
destination against every step's `screen` in every journey, collecting step
ids in order with de-duplication. -/
def resolveNext (parsedView : ParsedView) (defs : WorkflowDefs) : List String :=
  parsedView.presentsTo.foldl
    (fun acc e =>
      defs.journeys.foldl
        (fun acc2 journey =>
          journey.steps.foldl
            (fun acc3 step =>
              if step.screen == e.destination && !acc3.contains step.id then
                acc3 ++ [step.id]
              else acc3)
            acc2)
        acc)
    []

/-- The `parsedByPath` map of merge.ts lines 270-272: a JS `Map` built from
an entry list, on which duplicate keys resolve to the last entry. -/
def parsedByPath (parsedViews : List ParsedView) (path : String) :
    Option ParsedView :=
  parsedViews.foldl (fun acc p => if p.filePath == path then some p else acc) none

/-- Apply `f` to the first journey whose id is `journeyId` (the object
`defs.journeys.find(...)` returns, which the source then mutates). -/
def updateFirstJourney (js : List Journey) (journeyId : String)
    (f : Journey → Journey) : List Journey :=
  match js with
  | [] => []
  | j :: rest =>
    if j.id == journeyId then f j :: rest
    else j :: updateFirstJourney rest journeyId f

/-- Apply `f` to the first step whose `swiftFile` is `filePath`. -/
def updateFirstStep (steps : List Step) (filePath : String)
    (f : Step → Step) : List Step :=
  match steps with
  | [] => []
  | s :: rest =>
    if s.swiftFile == some filePath then f s :: rest
    else s :: updateFirstStep rest filePath f

/-- Apply `f` to the step object `findStepByFile` locates (first journey,
first step tracking `filePath`). -/
def updateStepByFile (js : List Journey) (filePath : String)
    (f : Step → Step) : List Journey :=
  match js with
  | [] => []
  | j :: rest =>
    if j.steps.any (fun s => s.swiftFile == some filePath) then
      { j with steps := updateFirstStep j.steps filePath f } :: rest
    else j :: updateStepByFile rest filePath f

/-- One lowercase hex digit. -/
def hexDigit (n : Nat) : Char :=
  if n < 10 then Char.ofNat (48 + n) else Char.ofNat (87 + n)

/-- JSON.stringify escaping for one character of a string literal. -/
def jsonEscapeChar (c : Char) : String :=
  if c = '"' then "\\\""
  else if c = '\\' then "\\\\"
  else if c = '\x08' then "\\b"
  else if c = '\t' then "\\t"
  else if c = '\n' then "\\n"
  else if c = '\x0c' then "\\f"
  else if c = '\r' then "\\r"
  else if c.toNat < 32 then
    "\\u00" ++ String.mk [hexDigit (c.toNat / 16), hexDigit (c.toNat % 16)]
  else String.singleton c

/-- `JSON.stringify` of a string array, used by merge.ts lines 340-341 for
the update-edges change detail. -/
def stringifyIds (ids : List String) : String :=
  "[" ++ jsJoin ","
    (ids.map fun s => "\"" ++ jsJoin "" (s.data.map jsonEscapeChar) ++ "\"") ++ "]"

/-! ## sync/merge.ts `merge` -/

/-- Accumulator for the three merge loops: the evolving defs (the source
mutates its deep clone in place), the change log, and the review count. -/
structure MergeAcc where
  defs : WorkflowDefs
  changes : List ChangeRecord
  reviewCount : Nat
deriving Repr

/-- merge.ts lines 276-308, one iteration of the new-files loop. -/
def mergeNewFile (parsedViews : List ParsedView) (acc : MergeAcc)
    (file : ChangedFile) : MergeAcc :=
  match parsedByPath parsedViews file.path with
  | none => acc
  | some parsed =>
    if (findStepByFile acc.defs file.path).isSome then acc
    else
      let journeyId := assignJourney file.path parsed.structName parsed acc.defs
      let defs1 := ensureJourney acc.defs journeyId
      let stepId := slugify parsed.structName
      let next := resolveNext parsed defs1
      let step : Step :=
        { id := stepId
          label := "TODO: " ++ parsed.structName
          screen := parsed.structName
          swiftFile := some file.path
          type := parsed.inferredType
          phase := "Unassigned"
          next := next
          needsReview := true }
      let js2 := updateFirstJourney defs1.journeys journeyId
        (fun j => { j with steps := j.steps ++ [step] })
      let defs2 := { defs1 with journeys := js2 }
      let rec0 : ChangeRecord :=
        { action := "add", journeyId := journeyId, stepId := stepId
          detail := "Added " ++ parsed.structName ++ " from " ++ file.path }
      { defs := defs2, changes := acc.changes ++ [rec0]
        reviewCount := acc.reviewCount + 1 }

/-- merge.ts lines 312-325, one iteration of the removed-files loop. -/
def mergeRemovedFile (acc : MergeAcc) (filePath : String) : MergeAcc :=
  match findStepByFile acc.defs filePath with
  | none => acc
  | some (journey, step) =>
    if step.deprecated then acc
    else
      let js2 := updateStepByFile acc.defs.journeys filePath
        (fun s => { s with deprecated := true })
      let defs2 := { acc.defs with journeys := js2 }
      let rec0 : ChangeRecord :=
        { action := "deprecate", journeyId := journey.id, stepId := step.id
          detail := "Marked deprecated (file removed: " ++ filePath ++ ")" }
      { acc with defs := defs2, changes := acc.changes ++ [rec0] }

/-- merge.ts lines 329-356, one iteration of the modified-files loop.
`JSON.stringify(step.next) !== JSON.stringify(newNext)` is string-list
inequality (stringify is injective on string arrays). -/
def mergeModifiedFile (parsedViews : List ParsedView) (acc : MergeAcc)
    (file : ChangedFile) : MergeAcc :=
  match parsedByPath parsedViews file.path with
  | none => acc
  | some parsed =>
    match findStepByFile acc.defs file.path with
    | none => acc
    | some (journey, step) =>
      let newNext := resolveNext parsed acc.defs
      if step.next == newNext then acc
      else
        let updStep : Step → Step := fun s =>
          let labels :=
            match s.edgeLabels with
            | some ls =>
              if newNext.length < ls.length then some (ls.take newNext.length)
              else some ls
            | none => none
          { s with next := newNext, edgeLabels := labels }
        let js2 := updateStepByFile acc.defs.journeys file.path updStep
        let defs2 := { acc.defs with journeys := js2 }
        let rec0 : ChangeRecord :=
          { action := "update-edges", journeyId := journey.id, stepId := step.id
            detail := "Updated next[] from " ++ stringifyIds step.next ++
              " to " ++ stringifyIds newNext }
        { acc with defs := defs2, changes := acc.changes ++ [rec0] }

/-- sync/merge.ts `merge(current, scanResult, parsedViews)` (lines 256-359).
The JSON deep clone of `current` is the identity on this pure data; the
unused `parsedByStruct` map of line 267 is omitted. -/
def merge (current : WorkflowDefs) (scanResult : ScanResult)
    (parsedViews : List ParsedView) : MergeResult :=
  let acc0 : MergeAcc := { defs := current, changes := [], reviewCount := 0 }
  let acc1 := scanResult.newFiles.foldl (mergeNewFile parsedViews) acc0
  let acc2 := scanResult.removedFiles.foldl mergeRemovedFile acc1
  let acc3 := scanResult.modifiedFiles.foldl (mergeModifiedFile parsedViews) acc2
  { json := acc3.defs, changes := acc3.changes, reviewCount := acc3.reviewCount }

/-! ## sync/parse.ts — pattern matching primitives

The extractor uses a fixed table of JS regexes.  Each regex is embedded as a
character-level matcher with exactly the source pattern's semantics on the
backtracking-free shapes involved (literals, greedy whitespace and word runs,
bracket classes, one lazy gap, word boundaries). -/

/-- JS word character class (ASCII letters, digits, underscore). -/
def isWordChar (c : Char) : Bool :=
  c.isAlpha || c.isDigit || c == '_'

/-- JS whitespace class, restricted to the ASCII whitespace occurring in
source text. -/
def isSpaceChar (c : Char) : Bool :=
  c == ' ' || c == '\t' || c == '\n' || c == '\r' || c == '\x0b' || c == '\x0c'

/-- Match a literal character sequence at the head, returning the remainder. -/
def matchLit : List Char → List Char → Option (List Char)
  | [], rest => some rest
  | _ :: _, [] => none
  | p :: ps, c :: cs => if p == c then matchLit ps cs else none

/-- One-or-more whitespace characters, consumed greedily. -/
def matchWs1 : List Char → Option (List Char)
  | c :: rest => if isSpaceChar c then some (rest.dropWhile isSpaceChar) else none
  | [] => none

/-- Word boundary on the left of the current position: true at the start of
the input or after a non-word character. -/
def boundaryBefore : Option Char → Bool
  | some p => !isWordChar p
  | none => true

/-- Word boundary on the right: true at the end of the input or before a
non-word character. -/
def boundaryAfter : List Char → Bool
  | c :: _ => !isWordChar c
  | [] => true

/-- parse.ts STRUCT_RE at one position: word-boundary handled by the caller,
then the literal "struct", one-or-more spaces, a captured word run,
optional spaces, a colon, optional spaces, the literal "View", and a word
boundary.  Greedy runs are deterministic here because the follow-up token is
never in the same character class. -/
def structHere (cs : List Char) : Option String :=
  match matchLit "struct".data cs with
  | none => none
  | some r1 =>
    match matchWs1 r1 with
    | none => none
    | some r2 =>
      let w := r2.takeWhile isWordChar
      if w.isEmpty then none
      else
        let r3 := (r2.drop w.length).dropWhile isSpaceChar
        match matchLit [':'] r3 with
        | none => none
        | some r4 =>
          match matchLit "View".data (r4.dropWhile isSpaceChar) with
          | none => none
          | some r5 => if boundaryAfter r5 then some (String.mk w) else none

/-- parse.ts `extractStructName`: leftmost match of STRUCT_RE, carrying the
previous character for the word-boundary test. -/
def extractStructNameAux : Option Char → List Char → Option String
  | _, [] => none
  | prev, c :: cs =>
    match (if boundaryBefore prev then structHere (c :: cs) else none) with
    | some w => some w
    | none => extractStructNameAux (some c) cs

/-- parse.ts `extractStructName` (lines 23-26). -/
def extractStructName (content : String) : Option String :=
  extractStructNameAux none content.data

/-- The shared tail of every nav pattern at one position: a maximal word run
that ends in "View" with at least one character before it (so that the \w+
part is non-empty), optional whitespace, an opening parenthesis.  The JS
backtracking on (\w+View) always consumes the whole maximal run, because the
character after the group must match an open parenthesis or whitespace. -/
def viewCallHere (cs : List Char) : Option (String × List Char) :=
  let run := cs.takeWhile isWordChar
  match run.reverse with
  | 'w' :: 'e' :: 'i' :: 'V' :: _ :: _ =>
    let rest := (cs.drop run.length).dropWhile isSpaceChar
    (matchLit ['('] rest).map fun r => (String.mk run, r)
  | _ => none

/-- The lazy gap of the nav patterns: scan forward over non-brace characters
for the earliest position where `viewCallHere` succeeds; an opening brace
ends the search unsuccessfully. -/
def lazyViewTarget : List Char → Option (String × List Char)
  | [] => none
  | c :: cs =>
    if c == '{' then none
    else
      match viewCallHere (c :: cs) with
      | some r => some r
      | none => lazyViewTarget cs

/-- Optional whitespace, an opening parenthesis, a greedy run of
non-close-parenthesis characters, the closing parenthesis, optional
whitespace, an opening brace. -/
def parenThenBrace (cs : List Char) : Option (List Char) :=
  match matchLit ['('] (cs.dropWhile isSpaceChar) with
  | none => none
  | some r1 =>
    let r2 := r1.dropWhile fun c => c != ')'
    match matchLit [')'] r2 with
    | none => none
    | some r3 => matchLit ['{'] (r3.dropWhile isSpaceChar)

/-- Optional whitespace followed by an opening brace. -/
def braceOnly (cs : List Char) : Option (List Char) :=
  matchLit ['{'] (cs.dropWhile isSpaceChar)

/-- parse.ts NAV_PATTERNS entry 1: the ".sheet(...) brace" pattern. -/
def sheetHere (_ : Option Char) (cs : List Char) : Option (String × List Char) :=
  match matchLit ".sheet".data cs with
  | none => none
  | some r1 =>
    match parenThenBrace r1 with
    | none => none
    | some r2 => lazyViewTarget r2

/-- parse.ts NAV_PATTERNS entry 2: the ".fullScreenCover(...) brace" pattern. -/
def coverHere (_ : Option Char) (cs : List Char) : Option (String × List Char) :=
  match matchLit ".fullScreenCover".data cs with
  | none => none
  | some r1 =>
    match parenThenBrace r1 with
    | none => none
    | some r2 => lazyViewTarget r2

/-- parse.ts NAV_PATTERNS entry 3: the "NavigationLink brace" pattern
(no word boundary in the source regex). -/
def navLinkHere (_ : Option Char) (cs : List Char) : Option (String × List Char) :=
  match matchLit "NavigationLink".data cs with
  | none => none
  | some r1 =>
    match braceOnly r1 with
    | none => none
    | some r2 => lazyViewTarget r2

/-- parse.ts NAV_PATTERNS entry 4: the ".navigationDestination(...) brace"
pattern. -/
def navDestHere (_ : Option Char) (cs : List Char) : Option (String × List Char) :=
  match matchLit ".navigationDestination".data cs with
  | none => none
  | some r1 =>
    match parenThenBrace r1 with
    | none => none
    | some r2 => lazyViewTarget r2

/-- parse.ts NAV_PATTERNS entry 5: the word-bounded "Tab brace" pattern. -/
def tabHere (prev : Option Char) (cs : List Char) : Option (String × List Char) :=
  if boundaryBefore prev then
    match matchLit "Tab".data cs with
    | none => none
    | some r1 =>
      match braceOnly r1 with
      | none => none
      | some r2 => lazyViewTarget r2
  else none

/-- The `while ((m = re.exec(content)) !== null)` loop of a global regex:
successive non-overlapping leftmost matches, the search resuming after each
match.  Every nav match ends with the opening parenthesis of the target
call, so the previous character after a match is always that parenthesis.
`fuel` is at least one more than the list length, so it never runs out. -/
def scanPatternAux (pat : Option Char → List Char → Option (String × List Char)) :
    Nat → Option Char → List Char → List String
  | 0, _, _ => []
  | _ + 1, _, [] => []
  | fuel + 1, prev, c :: cs =>
    match pat prev (c :: cs) with
    | some (dest, rest) => dest :: scanPatternAux pat fuel (some '(') rest
    | none => scanPatternAux pat fuel (some c) cs

/-- All captures of one global nav pattern over the content. -/
def runPattern (pat : Option Char → List Char → Option (String × List Char))
    (content : String) : List String :=
  scanPatternAux pat (content.data.length + 1) none content.data

/-- parse.ts `extractEdges` (lines 45-64): run the five nav patterns in table
order, de-duplicating on the (destination, mechanism) pair. -/
def extractEdges (content : String) : List NavEdge :=
  let pats : List ((Option Char → List Char → Option (String × List Char)) × String) :=
    [(sheetHere, "sheet"), (coverHere, "fullScreenCover"),
     (navLinkHere, "navigationLink"), (navDestHere, "navigationDestination"),
     (tabHere, "tabView")]
  pats.foldl
    (fun acc pm =>
      (runPattern pm.1 content).foldl
        (fun acc2 dest =>
          if acc2.any (fun e => e.destination == dest && e.mechanism == pm.2) then acc2
          else acc2 ++ [{ destination := dest, mechanism := pm.2 }])
        acc)
    []

/-! ## sync/parse.ts — type inference -/

/-- True when a predicate on (previous character, suffix) holds at some
position of the input: the `test` of a search regex. -/
def existsAtAux (p : Option Char → List Char → Bool) : Option Char → List Char → Bool
  | _, [] => false
  | prev, c :: cs => p prev (c :: cs) || existsAtAux p (some c) cs

/-- Run a positional Bool pattern over a string. -/
def existsAt (p : Option Char → List Char → Bool) (content : String) : Bool :=
  existsAtAux p none content.data

/-- Plain substring occurrence. -/
def containsSeq (w : List Char) : List Char → Bool
  | [] => (matchLit w []).isSome
  | c :: cs => (matchLit w (c :: cs)).isSome || containsSeq w cs

/-- A whole-word occurrence (word boundaries on both sides). -/
def containsWord (w : String) (content : String) : Bool :=
  existsAt
    (fun prev cs =>
      boundaryBefore prev &&
        match matchLit w.data cs with
        | some r => boundaryAfter r
        | none => false)
    content

/-- parse.ts INPUT_INDICATORS (line 68): any of the interactive-control
keywords as a whole word. -/
def testInputIndicators (content : String) : Bool :=
  ["TextField", "TextEditor", "Picker", "Toggle", "SecureField", "Slider",
   "Stepper"].any fun w => containsWord w content

/-- parse.ts DISMISS_INDICATORS (line 69): a word-bounded dismiss call, or
the presentationMode dismiss chain as a substring. -/
def testDismiss (content : String) : Bool :=
  existsAt
    (fun prev cs =>
      boundaryBefore prev &&
        match matchLit "dismiss".data cs with
        | some r => (matchLit "()".data (r.dropWhile isSpaceChar)).isSome
        | none => false)
    content
  || containsSeq "presentationMode.wrappedValue.dismiss".data content.data

/-- parse.ts BUTTON_INDICATORS (line 70): word-bounded "Button", optional
whitespace, an opening parenthesis. -/
def testButton (content : String) : Bool :=
  existsAt
    (fun prev cs =>
      boundaryBefore prev &&
        match matchLit "Button".data cs with
        | some r => (matchLit ['('] (r.dropWhile isSpaceChar)).isSome
        | none => false)
    content

/-- parse.ts CONDITIONAL_NAV (line 71): the literal "if", one-or-more
spaces, a word run, optional spaces, an opening brace, then any of the three
navigation markers anywhere later (the lazy gap is irrelevant for `test`). -/
def testConditionalNav (content : String) : Bool :=
  existsAt
    (fun _ cs =>
      match matchLit "if".data cs with
      | none => false
      | some r1 =>
        match matchWs1 r1 with
        | none => false
        | some r2 =>
          let w := r2.takeWhile isWordChar
          if w.isEmpty then false
          else
            let r3 := (r2.drop w.length).dropWhile isSpaceChar
            match matchLit ['{'] r3 with
            | none => false
            | some r4 =>
              containsSeq "NavigationLink".data r4 ||
              containsSeq ".sheet".data r4 ||
              containsSeq ".fullScreenCover".data r4)
    content

/-- parse.ts BACKGROUND_ONLY (line 72): word-bounded "Task brace", or
".task brace", or ".onAppear brace". -/
def testBackgroundOnly (content : String) : Bool :=
  existsAt
    (fun prev cs =>
      boundaryBefore prev &&
        match matchLit "Task".data cs with
        | some r => (matchLit ['{'] (r.dropWhile isSpaceChar)).isSome
        | none => false)
    content
  || existsAt
    (fun _ cs =>
      match matchLit ".task".data cs with
      | some r => (matchLit ['{'] (r.dropWhile isSpaceChar)).isSome
      | none => false)
    content
  || existsAt
    (fun _ cs =>
      match matchLit ".onAppear".data cs with
      | some r => (matchLit ['{'] (r.dropWhile isSpaceChar)).isSome
      | none => false)
    content

/-- parse.ts HAS_ANY_BODY_CONTENT (line 73): word-bounded "var",
one-or-more spaces, "body", optional spaces, a colon. -/
def testHasBody (content : String) : Bool :=
  existsAt
    (fun prev cs =>
      boundaryBefore prev &&
        match matchLit "var".data cs with
        | none => false
        | some r1 =>
          match matchWs1 r1 with
          | none => false
          | some r2 =>
            match matchLit "body".data r2 with
            | some r3 => (matchLit [':'] (r3.dropWhile isSpaceChar)).isSome
            | none => false)
    content

/-- parse.ts `inferType` (lines 75-91): the first-match-wins cascade. -/
def inferType (content : String) : StepType :=
  if testInputIndicators content then .input
  else if testConditionalNav content then .decision
  else if testButton content && testDismiss content then .action
  else if !testHasBody content || (!testButton content && testBackgroundOnly content) then
    .system
  else .display

/-- sync/parse.ts `parseSwiftFile` (lines 95-105). -/
def parseSwiftFile (filePath content : String) : Option ParsedView :=
  match extractStructName content with
  | none => none
  | some structName =>
    some
      { structName := structName
        filePath := filePath
        presentsTo := extractEdges content
        inferredType := inferType content }

/-! ## sync/scan.ts

The scanner shells out to git; those effects are an oracle (`GitEnv`) whose
answers are consumed exactly as the source consumes command output.  The
repo path argument is folded into the oracle. -/

/-- The results of the git commands a scan may run: the HEAD rev-parse, the
tree-wide name-status diff, and the per-file show and diff.  An `Except`
error is a command that throws. -/
structure GitEnv where
  revParse : Except String String
  diffNameStatus : Except String String
  showFile : String → Except String String
  diffFile : String → Except String String

/-- Matches the single-directory regexes of scan.ts `isWatched`: the path
starts with `pre`, and the remainder is one-or-more non-slash characters
followed directly by ".swift" at the end. -/
def watchedDir (pre : String) (p : String) : Bool :=
  startsWith p pre &&
  (let rest := p.data.drop pre.length
   rest.length > 6 && rest.all (fun c => c != '/') &&
     (matchLit ".swift".data.reverse rest.reverse).isSome)

/-- scan.ts `isWatched` (lines 33-44). -/
def isWatched (filePath : String) : Bool :=
  watchedDir "ExampleApp/Sources/UI/Views/" filePath ||
  watchedDir "ExampleApp/Sources/UI/Onboarding/" filePath ||
  watchedDir "ExampleApp/Sources/UI/Components/" filePath ||
  filePath == "ExampleApp/ContentView.swift" ||
  filePath == "ExampleApp/ExampleAppApp.swift" ||
  watchedDir "ExampleAppShare/" filePath ||
  watchedDir "ExampleAppAction/" filePath

/-- JS falsiness of the `lastSHA` argument: null or the empty string. -/
def lastFalsy : Option String → Bool
  | none => true
  | some s => s == ""

/-- scan.ts lines 66-104, one name-status line already split on tabs:
`statusCode` is the first field, the path is the remaining fields re-joined.
A failing per-file content fetch skips the file (source comment: the file
may not exist at HEAD if the status is odd); a failing per-file diff falls
back to the empty diff string. -/
def scanParts (env : GitEnv) (acc : ScanResult) (parts : List String) : ScanResult :=
  match parts with
  | [] => acc
  | statusCode :: pathParts =>
    let filePath := jsJoin "\t" pathParts
    if filePath == "" || !isWatched filePath then acc
    else
      let status := String.mk (statusCode.data.take 1)
      if status == "D" then
        { acc with removedFiles := acc.removedFiles ++ [filePath] }
      else
        match env.showFile filePath with
        | .error _ => acc
        | .ok content =>
          let diff :=
            match env.diffFile filePath with
            | .ok d => d
            | .error _ => ""
          let entry : ChangedFile :=
            { path := filePath, content := content, diff := diff, status := status }
          if status == "A" then { acc with newFiles := acc.newFiles ++ [entry] }
          else { acc with modifiedFiles := acc.modifiedFiles ++ [entry] }

/-- One raw diff line: split on tabs, then process. -/
def scanLine (env : GitEnv) (acc : ScanResult) (line : String) : ScanResult :=
  scanParts env acc (jsSplitChar '\t' line)

/-- sync/scan.ts `scan` (lines 46-107).  A rev-parse or tree-diff failure
propagates to the caller uncaught; the no-op fast path returns an empty
diff when `lastSHA` is falsy or equals the current HEAD. -/
def scan (env : GitEnv) (lastSHA : Option String) : Except String ScanResult :=
  match env.revParse with
  | .error e => .error e
  | .ok out =>
    let currentSHA := jsTrim out
    if lastFalsy lastSHA || lastSHA == some currentSHA then
      .ok { currentSHA := currentSHA, newFiles := [], removedFiles := []
            modifiedFiles := [] }
    else
      match env.diffNameStatus with
      | .error e => .error e
      | .ok dout =>
        let diffLines := (jsSplitChar '\n' (jsTrim dout)).filter (fun l => l != "")
        .ok (diffLines.foldl (scanLine env)
          { currentSHA := currentSHA, newFiles := [], removedFiles := []
            modifiedFiles := [] })

/-! ## daemon.ts — the poll cycle

State and control flow of `pollCycle` (daemon.ts lines 69-181) with effects
as an oracle per cycle.  Wall-clock fields (`lastCheck`, `lastUpdate`,
timestamps in the written document) and logging are outside the model; the
two primary persists — the workflow document and the cursor file — are
modelled as succeeding, matching the atomic replace-on-success persistence
the design specifies; the best-effort baseline snapshot and mermaid export
are caught inside the cycle and touch no modelled state. -/

/-- Daemon status enum of daemon.ts (the "error" value is declared but never
assigned by the source). -/
inductive DaemonStatus where
  | running | paused | fault
deriving DecidableEq, Repr

/-- The modelled fields of daemon.ts `DaemonState`. -/
structure DaemonState where
  status : DaemonStatus
  lastCommit : Option String
  updatesApplied : Nat
  pendingReview : Nat
  consecutiveErrors : Nat
deriving DecidableEq, Repr

/-- The per-cycle oracle: the git command answers, and the workflow-defs
document load (`none` = file absent, giving the inline default; an error is
a JSON parse throw). -/
structure CycleEnv where
  git : GitEnv
  workflowsFile : Option (Except String WorkflowDefs)

/-- daemon.ts lines 111-114: load the current defs or fall back to the
default skeleton document. -/
def loadWorkflows (env : CycleEnv) : Except String WorkflowDefs :=
  match env.workflowsFile with
  | none => .ok { version := some "1.0.0", journeys := [] }
  | some r => r

/-- daemon.ts `checkErrorThreshold` (lines 183-193) together with the
increment at a failure site: at five consecutive errors the status flips to
paused (the timed resume is wall-clock behavior outside the model). -/
def bumpErrors (s : DaemonState) : DaemonState :=
  let n := s.consecutiveErrors + 1
  { s with consecutiveErrors := n
           status := if n ≥ 5 then .paused else s.status }

/-- daemon.ts lines 105-108: parse every new and modified file, dropping
files without a struct declaration. -/
def parsedViewsOf (r : ScanResult) : List ParsedView :=
  (r.newFiles ++ r.modifiedFiles).filterMap fun f => parseSwiftFile f.path f.content

/-- daemon.ts lines 78-81. -/
def totalChanged (r : ScanResult) : Nat :=
  r.newFiles.length + r.removedFiles.length + r.modifiedFiles.length

/-- daemon.ts `pollCycle` (lines 69-181) as a transition on the in-memory
state and the persisted cursor (`store`).  Any uncaught throw lands in the
catch-all: error counter bumped, nothing else changed. -/
def pollCycle (env : CycleEnv) (s : DaemonState) (store : Option String) :
    DaemonState × Option String :=
  match scan env.git s.lastCommit with
  | .error _ => (bumpErrors s, store)
  | .ok r =>
    if totalChanged r = 0 then
      ({ s with lastCommit := some r.currentSHA, consecutiveErrors := 0 },
       some r.currentSHA)
    else
      match loadWorkflows env with
      | .error _ => (bumpErrors s, store)
      | .ok currentDefs =>
        let m := merge currentDefs r (parsedViewsOf r)
        let v := validate currentDefs m.json
        if v.ok then
          ({ s with lastCommit := some r.currentSHA
                    updatesApplied := s.updatesApplied + 1
                    pendingReview := s.pendingReview + m.reviewCount
                    consecutiveErrors := 0 },
           some r.currentSHA)
        else (bumpErrors s, store)

/-- daemon.ts `startPoll` tick (lines 199-208): a cycle runs only while the
status is running. -/
def tick (env : CycleEnv) (p : DaemonState × Option String) :
    DaemonState × Option String :=
  if p.1.status = .running then pollCycle env p.1 p.2 else p

/-- The revision a cycle commits (advances and persists the cursor to), if
any: the scanned HEAD on the zero-change fast path, or on a validated and
persisted candidate; `none` on a skipped, failed-validation, or throwing
cycle. -/
def cycleCommit (env : CycleEnv) (s : DaemonState) : Option String :=
  if s.status = .running then
    match scan env.git s.lastCommit with
    | .error _ => none
    | .ok r =>
      if totalChanged r = 0 then some r.currentSHA
      else
        match loadWorkflows env with
        | .error _ => none
        | .ok currentDefs =>
          if (validate currentDefs (merge currentDefs r (parsedViewsOf r)).json).ok
          then some r.currentSHA else none
  else none

/-- A run of consecutive scheduler cycles. -/
def runTrace (envs : List CycleEnv) (p : DaemonState × Option String) :
    DaemonState × Option String :=
  envs.foldl (fun q env => tick env q) p

/-- The revisions committed along a run, in order. -/
def commitList : List CycleEnv → DaemonState × Option String → List String
  | [], _ => []
  | env :: rest, p => (cycleCommit env p.1).toList ++ commitList rest (tick env p)

/-! ## Observation predicates on graphs -/

/-- The (container id, step id) pairs of a journey list. -/
def stepPairsL (js : List Journey) : List (String × String) :=
  js.flatMap fun j => j.steps.map fun s => (j.id, s.id)

/-- A step with id `sid` exists non-tombstoned in container `jid`. -/
def stepNonTombstonedIn (defs : WorkflowDefs) (jid sid : String) : Bool :=
  defs.journeys.any fun j =>
    j.id == jid && j.steps.any fun st => st.id == sid && !st.deprecated

/-- A step with id `sid` exists (tombstoned or not) in container `jid`. -/
def stepPresentIn (defs : WorkflowDefs) (jid sid : String) : Bool :=
  defs.journeys.any fun j => j.id == jid && j.steps.any fun st => st.id == sid

/-- Total number of steps across all containers. -/
def stepTotal (defs : WorkflowDefs) : Nat :=
  (defs.journeys.map fun j => j.steps.length).sum

/-! ## Concrete instances used by individual claims -/

/-- A well-formed single step. -/
def plainStep (sid : String) : Step :=
  { id := sid, label := "L " ++ sid, screen := "S" ++ sid, swiftFile := none
    type := .display, phase := "P", next := [] }

/-- A well-formed single journey. -/
def plainJourney (jid : String) (steps : List Step) : Journey :=
  { id := jid, name := "N " ++ jid, description := "", steps := steps }

/-- C1 counterexample, previous graph: one journey with one live step. -/
def c1Prev : WorkflowDefs :=
  { journeys := [plainJourney "j" [plainStep "s"]] }

/-- C1 counterexample, candidate graph: the whole journey is gone. -/
def c1Cand : WorkflowDefs := { journeys := [] }

/-- C1 witness, candidate: journey present but the step gone. -/
def c1WCand : WorkflowDefs :=
  { journeys := [plainJourney "j" [plainStep "t"]] }

/-- C7: previous graph with exactly 1 container. -/
def c7Prev : WorkflowDefs := { journeys := [plainJourney "a" []] }

/-- C7: candidate with 5 containers (delta +4). -/
def c7Cand : WorkflowDefs :=
  { journeys := [plainJourney "a" [], plainJourney "b" [], plainJourney "c" []
                 , plainJourney "d" [], plainJourney "e" []] }

/-- C10: the existing step for DetailView. -/
def c10DetailStep : Step :=
  { id := "detail", label := "Detail", screen := "DetailView"
    swiftFile := some "ExampleApp/Sources/UI/Views/DetailView.swift"
    type := .display, phase := "Main", next := [] }

/-- C10: current graph — container "main" holds the step for DetailView. -/
def c10Defs : WorkflowDefs :=
  { journeys := [{ id := "main", name := "Main", description := ""
                   steps := [c10DetailStep] }] }

/-- C10: a new share-extension view presenting to DetailView. -/
def c10View : ParsedView :=
  { structName := "ShareView", filePath := "ExampleAppShare/ShareView.swift"
    presentsTo := [{ destination := "DetailView", mechanism := "sheet" }]
    inferredType := .display }

/-- C10: the scan diff adding only that file. -/
def c10Scan : ScanResult :=
  { currentSHA := "abc"
    newFiles := [{ path := "ExampleAppShare/ShareView.swift", content := ""
                   diff := "", status := "A" }]
    removedFiles := [], modifiedFiles := [] }

/-- C5 scenario: the step whose edges shrink from b,c to b. -/
def c5StepA : Step :=
  { id := "a", label := "a", screen := "AView", swiftFile := some "a.swift"
    type := .display, phase := "P", next := ["b", "c"]
    edgeLabels := some ["Yes", "No"] }

/-- C5 scenario: edge target b. -/
def c5StepB : Step :=
  { id := "b", label := "b", screen := "BView", swiftFile := some "b.swift"
    type := .display, phase := "P", next := [] }

/-- C5 scenario: former edge target c. -/
def c5StepC : Step :=
  { id := "c", label := "c", screen := "CView", swiftFile := some "c.swift"
    type := .display, phase := "P", next := [] }

/-- C5 scenario: the current graph. -/
def c5Defs : WorkflowDefs :=
  { journeys := [{ id := "j", name := "j", description := ""
                   steps := [c5StepA, c5StepB, c5StepC] }] }

/-- C5 scenario: the re-extracted descriptor now presenting only to BView. -/
def c5View : ParsedView :=
  { structName := "AView", filePath := "a.swift"
    presentsTo := [{ destination := "BView", mechanism := "sheet" }]
    inferredType := .display }

/-- C5 scenario: the modified-file diff entry. -/
def c5File : ChangedFile := { path := "a.swift", content := "", diff := "", status := "M" }

/-- C6 witness: a live tracked step. -/
def c6Step : Step :=
  { id := "note", label := "Note", screen := "NoteView", swiftFile := some "x.swift"
    type := .display, phase := "P", next := [] }

/-- C6 witness: graph with the live step. -/
def c6Defs : WorkflowDefs :=
  { journeys := [{ id := "n", name := "N", description := "", steps := [c6Step] }] }

/-- C6 witness: graph whose tracked step is already tombstoned. -/
def c6Tomb : WorkflowDefs :=
  { journeys := [{ id := "n", name := "N", description := ""
                   steps := [{ c6Step with deprecated := true }] }] }

/-- The container-choice rule exactly as claim C8 words it: (a) the
path-prefix rule table; (b) if the new node is itself a resolved target of
some existing node's outgoing edge, that node's container; (c) otherwise
"unassigned".  Kept for comparison with the implemented `assignJourney`. -/
def c8ClaimAssign (filePath : String) (structName : String) (parsedView : ParsedView)
    (defs : WorkflowDefs) : String :=
  if startsWith filePath "ExampleApp/Sources/UI/Onboarding/" then "first-launch"
  else if startsWith filePath "ExampleAppShare/" then "capture-via-share"
  else if startsWith filePath "ExampleAppAction/" then "capture-via-action"
  else
    match defs.journeys.find? (fun journey =>
      journey.steps.any fun step =>
        step.next.any fun nextId =>
          match journey.steps.find? (fun s => s.id == nextId) with
          | some nextStep => nextStep.screen == structName
          | none => false) with
    | some journey => journey.id
    | none => "unassigned"

/-- The amended container-choice cascade, following the amended claim's
words: (a) the path-prefix rule table; (b) the resolved-target rule; (b')
additionally, if the new node's descriptor presents to the screen of some
existing step, join that step's container; (c) otherwise "unassigned". -/
def amendedAssignJourney (filePath : String) (structName : String)
    (parsedView : ParsedView) (defs : WorkflowDefs) : String :=
  if startsWith filePath "ExampleApp/Sources/UI/Onboarding/" then "first-launch"
  else if startsWith filePath "ExampleAppShare/" then "capture-via-share"
  else if startsWith filePath "ExampleAppAction/" then "capture-via-action"
  else
    match defs.journeys.find? (fun journey =>
      journey.steps.any fun step =>
        step.next.any fun nextId =>
          match journey.steps.find? (fun s => s.id == nextId) with
          | some nextStep => nextStep.screen == structName
          | none => false) with
    | some journey => journey.id
    | none =>
      match defs.journeys.find? (fun journey =>
        journey.steps.any fun step =>
          step.screen != "" && parsedView.presentsTo.any fun e =>
            e.destination == step.screen) with
      | some journey => journey.id
      | none => "unassigned"

/-- C8 counterexample: the existing graph — container "main" with a step
for HomeView that nothing points at. -/
def c8Defs : WorkflowDefs :=
  { journeys := [{ id := "main", name := "Main", description := ""
                   steps := [{ id := "home", label := "Home", screen := "HomeView"
                               swiftFile := some "h.swift", type := .display
                               phase := "P", next := [] }] }] }

/-- C8 counterexample: a new view (prefix rules do not apply) presenting to
HomeView; it is not a resolved target of any existing edge. -/
def c8View : ParsedView :=
  { structName := "NewView", filePath := "Other/NewView.swift"
    presentsTo := [{ destination := "HomeView", mechanism := "sheet" }]
    inferredType := .display }

/-- C9 counterexample: every git command succeeds except fetching the one
changed file's content. -/
def c9Env : GitEnv :=
  { revParse := .ok "abc\n"
    diffNameStatus := .ok "A\tExampleApp/ContentView.swift\n"
    showFile := fun _ => .error "boom"
    diffFile := fun _ => .ok "d" }

/-- C9 witness: rev-parse itself throws. -/
def c9WEnv : GitEnv :=
  { revParse := .error "unreachable"
    diffNameStatus := .ok ""
    showFile := fun _ => .ok ""
    diffFile := fun _ => .ok "" }

/-- Boolean success test for an Except value. -/
def exceptOk {ε α : Type} : Except ε α → Bool
  | .ok _ => true
  | .error _ => false

instance instExceptDecEq {ε α : Type} [DecidableEq ε] [DecidableEq α] :
    DecidableEq (Except ε α)
  | .error a, .error b =>
    if h : a = b then .isTrue (congrArg Except.error h)
    else .isFalse (fun hh => h (Except.error.inj hh))
  | .error _, .ok _ => .isFalse (fun hh => Except.noConfusion hh)
  | .ok _, .error _ => .isFalse (fun hh => Except.noConfusion hh)
  | .ok a, .ok b =>
    if h : a = b then .isTrue (congrArg Except.ok h)
    else .isFalse (fun hh => h (Except.ok.inj hh))

/-- C8 counterexample: the diff entry adding the new view's file. -/
def c8File : ChangedFile :=
  { path := "Other/NewView.swift", content := "", diff := "", status := "A" }

/-- C8 counterexample: the scan result carrying only that added file. -/
def c8Scan : ScanResult :=
  { currentSHA := "x", newFiles := [c8File], removedFiles := [], modifiedFiles := [] }

/-- C2 witness: an environment whose repository probe throws. -/
def c2Env : CycleEnv :=
  { git := { revParse := .error "down", diffNameStatus := .ok ""
             showFile := fun _ => .ok "", diffFile := fun _ => .ok "" }
    workflowsFile := none }

/-- C2 witness: a running daemon state with no cursor yet. -/
def c2State : DaemonState :=
  { status := .running, lastCommit := none, updatesApplied := 0
    pendingReview := 0, consecutiveErrors := 0 }

/-- C4 witness: a minimal Swift source defining WelcomeView with no nav
edges and no category markers. -/
def c4Content : String :=
  "struct WelcomeView: View \x7b var body: some View \x7b Text(hello) \x7d \x7d"

/-- C4 witness: a watched path matching none of the container-prefix rules. -/
def c4Path : String := "ExampleApp/Sources/UI/Views/WelcomeView.swift"

/-- C4 witness: an empty current graph. -/
def c4Current : WorkflowDefs := { journeys := [] }

/-! ## Error-accumulation lemmas for the validator -/

theorem foldl_errors_mono {α : Type} (f : VAcc → α → VAcc)
    (hf : ∀ acc x, ∃ t, (f acc x).errors = acc.errors ++ t) :
    ∀ (l : List α) (acc : VAcc), ∃ t, (l.foldl f acc).errors = acc.errors ++ t := by
  intro l
  induction l with
  | nil => exact fun acc => ⟨[], by simp⟩
  | cons x xs ih =>
    intro acc
    obtain ⟨t1, h1⟩ := hf acc x
    obtain ⟨t2, h2⟩ := ih (f acc x)
    exact ⟨t1 ++ t2, by rw [List.foldl_cons, h2, h1, List.append_assoc]⟩

theorem foldl_errors_emits {α : Type} (f : VAcc → α → VAcc)
    (hf : ∀ acc x, ∃ t, (f acc x).errors = acc.errors ++ t)
    {x : α} {e : String} :
    ∀ (l : List α), x ∈ l → (∀ acc, e ∈ (f acc x).errors) →
      ∀ acc, e ∈ (l.foldl f acc).errors := by
  intro l
  induction l with
  | nil => intro h; cases h
  | cons y ys ih =>
    intro hx he acc
    rcases List.mem_cons.mp hx with h | h
    · subst h
      obtain ⟨t, ht⟩ := foldl_errors_mono f hf ys (f acc x)
      rw [List.foldl_cons, ht]
      exact List.mem_append_left _ (he acc)
    · exact ih h he (f acc y)

theorem foldl_errors_all {α : Type} (f : VAcc → α → VAcc) (P : String → Prop)
    (hf : ∀ acc x e, (∀ e2 ∈ acc.errors, P e2) → e ∈ (f acc x).errors → P e) :
    ∀ (l : List α) (acc : VAcc), (∀ e ∈ acc.errors, P e) →
      ∀ e ∈ (l.foldl f acc).errors, P e := by
  intro l
  induction l with
  | nil => intro acc h; simpa using h
  | cons x xs ih =>
    intro acc h e he
    refine ih (f acc x) (fun e2 he2 => hf acc x e2 h he2) e he

theorem stepChecks_errors_append (jid : String) (ids : List String) (acc : VAcc)
    (st : Step) : ∃ t, (stepChecks jid ids acc st).errors = acc.errors ++ t := by
  simp only [stepChecks]
  split
  · exact ⟨_, rfl⟩
  · exact ⟨_, rfl⟩

/-- The validator's per-journey pass, written as an explicit equation. -/
theorem journeyChecks_errors_eq (ck : List String) (acc : VAcc) (j : Journey) :
    (journeyChecks ck acc j).errors =
      (j.steps.foldl (stepChecks j.id (j.steps.map (·.id)))
        { globalIds := acc.globalIds
          errors := acc.errors ++
            ((if j.id = "" then ["Journey missing id"] else []) ++
             (if j.name = "" then ["Journey \"" ++ j.id ++ "\": missing name"]
              else [])) }).errors
      ++ removedErrs ck j.id (j.steps.map (·.id)) := rfl

theorem journeyChecks_errors_append (ck : List String) (acc : VAcc) (j : Journey) :
    ∃ t, (journeyChecks ck acc j).errors = acc.errors ++ t := by
  rw [journeyChecks_errors_eq]
  obtain ⟨t1, h1⟩ := foldl_errors_mono (stepChecks j.id (j.steps.map (·.id)))
    (stepChecks_errors_append j.id (j.steps.map (·.id))) j.steps
    { globalIds := acc.globalIds
      errors := acc.errors ++
        ((if j.id = "" then ["Journey missing id"] else []) ++
         (if j.name = "" then ["Journey \"" ++ j.id ++ "\": missing name"]
          else [])) }
  rw [h1]
  exact ⟨_, by rw [List.append_assoc, List.append_assoc]⟩

/-- Errors present before remain present after the whole journey fold, and
the validator's verdict is false as soon as any error is present. -/
theorem validate_errors_eq (current incoming : WorkflowDefs) :
    (validate current incoming).errors =
      (incoming.journeys.foldl (journeyChecks (currentStepKeys current))
        { globalIds := []
          errors :=
            (if (incoming.journeys.length : Int) - current.journeys.length > 3 then
              ["Too many journeys added in one cycle: +" ++
                intToString ((incoming.journeys.length : Int) - current.journeys.length) ++
                " (max +3)"]
             else []) ++
            (if (incoming.journeys.length : Int) - current.journeys.length < -1 then
              ["Too many journeys removed in one cycle: " ++
                intToString ((incoming.journeys.length : Int) - current.journeys.length) ++
                " (max -1)"]
             else []) }).errors := rfl

theorem validate_ok_iff (current incoming : WorkflowDefs) :
    (validate current incoming).ok = true ↔ (validate current incoming).errors = [] := by
  show ((validate current incoming).errors.isEmpty = true) ↔ _
  exact List.isEmpty_iff

theorem validate_ok_false_of_mem {current incoming : WorkflowDefs} {e : String}
    (h : e ∈ (validate current incoming).errors) :
    (validate current incoming).ok = false := by
  rcases Bool.eq_false_or_eq_true (validate current incoming).ok with hb | hb
  · rw [(validate_ok_iff current incoming).mp hb] at h
    cases h
  · exact hb

/-! ## Key-string lemmas for check 9 -/

theorem startsWith_mkKey (jid sid : String) :
    startsWith (mkKey jid sid) (jid ++ "::") = true := by
  show ((jid ++ "::").data.isPrefixOf ((jid ++ "::") ++ sid).data) = true
  rw [String.data_append (jid ++ "::") sid, List.isPrefixOf_iff_prefix]
  exact List.prefix_append _ _

theorem sliceFrom_mkKey (jid sid : String) :
    sliceFrom (mkKey jid sid) (jid.length + 2) = sid := by
  show String.mk (((jid ++ "::") ++ sid).data.drop (jid.length + 2)) = sid
  have hl : (jid ++ "::").data.length = jid.length + 2 := by
    rw [String.data_append]
    simp [List.length_append]
  rw [String.data_append (jid ++ "::") sid, ← hl, List.drop_left]

theorem mem_currentStepKeys {defs : WorkflowDefs} {jid sid : String}
    (h : stepNonTombstonedIn defs jid sid = true) :
    mkKey jid sid ∈ currentStepKeys defs := by
  unfold stepNonTombstonedIn at h
  rw [List.any_eq_true] at h
  obtain ⟨j, hj, hcond⟩ := h
  rw [Bool.and_eq_true] at hcond
  obtain ⟨hjid, hst⟩ := hcond
  rw [List.any_eq_true] at hst
  obtain ⟨st, hstm, hc⟩ := hst
  rw [Bool.and_eq_true] at hc
  obtain ⟨hsid, hdep⟩ := hc
  unfold currentStepKeys
  rw [List.mem_flatMap]
  refine ⟨j, hj, ?_⟩
  rw [List.mem_map]
  refine ⟨st, ?_, ?_⟩
  · rw [List.mem_filter]
    exact ⟨hstm, hdep⟩
  · rw [eq_of_beq hjid, eq_of_beq hsid]

theorem removedErrs_emits {ck : List String} {jid sid : String} {ids : List String}
    (hkey : mkKey jid sid ∈ ck) (habs : ids.contains sid = false) :
    ("Journey \"" ++ jid ++ "\": step \"" ++ sid ++
      "\" was removed (use deprecated:true instead)") ∈ removedErrs ck jid ids := by
  unfold removedErrs
  rw [List.mem_filterMap]
  refine ⟨mkKey jid sid, hkey, ?_⟩
  simp only [startsWith_mkKey, if_true, sliceFrom_mkKey, habs]
  simp [habs]

/-! ## Claim C1 -/

/-- C1 (counterexample): the claim says a previously non-tombstoned step
vanishing from its container makes `validate` return ok=false even when the
whole container is absent from the candidate; but for `c1Prev` (journey "j"
with live step "s") against `c1Cand` (no journeys at all, a −1 container
delta the validator allows) the step has fully disappeared and `validate`
returns ok=true. -/
theorem c1_full_disappearance_accepted :
    stepNonTombstonedIn c1Prev "j" "s" = true ∧
    stepPresentIn c1Cand "j" "s" = false ∧
    (validate c1Prev c1Cand).ok = true := by
  refine ⟨by decide, by decide, by decide⟩

/-- C1 (amended): if a step id existed non-tombstoned in container `jid` of
the previous graph and the candidate still has a journey with that id but no
step with that step id in it, `validate` returns ok=false.  (When the whole
container is absent from the candidate, the disappearance is not flagged —
only the container-count delta bound applies; see the counterexample.) -/
theorem c1_validate_rejects_step_removal
    (prev cand : WorkflowDefs) (jid sid : String) (J : Journey)
    (hprev : stepNonTombstonedIn prev jid sid = true)
    (hJ : J ∈ cand.journeys) (hid : J.id = jid)
    (habs : (J.steps.map (·.id)).contains sid = false) :
    (validate prev cand).ok = false := by
  subst hid
  have hkey := mem_currentStepKeys hprev
  have hrem := removedErrs_emits hkey habs
  have hjc : ∀ acc, ("Journey \"" ++ J.id ++ "\": step \"" ++ sid ++
      "\" was removed (use deprecated:true instead)") ∈
      (journeyChecks (currentStepKeys prev) acc J).errors := by
    intro acc
    rw [journeyChecks_errors_eq]
    exact List.mem_append_right _ hrem
  have hmem := foldl_errors_emits (journeyChecks (currentStepKeys prev))
    (journeyChecks_errors_append (currentStepKeys prev)) cand.journeys hJ hjc
  have hv : ("Journey \"" ++ J.id ++ "\": step \"" ++ sid ++
      "\" was removed (use deprecated:true instead)") ∈ (validate prev cand).errors := by
    rw [validate_errors_eq]
    exact hmem _
  exact validate_ok_false_of_mem hv

/-- C1 (witness for the amended theorem): journey "j" still present in the
candidate but its live step "s" gone — rejected. -/
theorem c1_validate_rejects_step_removal_witness :
    (validate c1Prev c1WCand).ok = false :=
  c1_validate_rejects_step_removal c1Prev c1WCand "j" "s"
    (plainJourney "j" [plainStep "t"]) (by decide) (by decide) rfl (by decide)

/-! ## Per-step error emission lemmas -/

theorem stepChecks_emits_missing_id {jid : String} {ids : List String} {st : Step}
    (h : st.id = "") (acc : VAcc) :
    ("Journey \"" ++ jid ++ "\": step missing id") ∈ (stepChecks jid ids acc st).errors := by
  simp [stepChecks, h]

theorem stepChecks_emits_ref {jid : String} {ids : List String} {st : Step} {n : String}
    (hid : ¬ st.id = "") (hn : n ∈ st.next) (habs : ids.contains n = false) (acc : VAcc) :
    ("Journey \"" ++ jid ++ "\" step \"" ++ st.id ++ "\"" ++ ": next ref \"" ++ n ++
      "\" not found in journey") ∈ (stepChecks jid ids acc st).errors := by
  simp only [stepChecks, if_neg hid]
  refine List.mem_append_right _ ?_
  refine List.mem_append_right _ ?_
  rw [List.mem_filterMap]
  refine ⟨n, hn, ?_⟩
  rw [habs]
  simp

/-- A step-level error emitted independently of the accumulator forces
`validate` to reject the candidate. -/
theorem validate_ok_false_of_step_emission
    (prev cand : WorkflowDefs) (J : Journey) (st : Step) (e : String)
    (hJ : J ∈ cand.journeys) (hst : st ∈ J.steps)
    (he : ∀ acc, e ∈ (stepChecks J.id (J.steps.map (·.id)) acc st).errors) :
    (validate prev cand).ok = false := by
  have hfold : ∀ acc, e ∈
      (J.steps.foldl (stepChecks J.id (J.steps.map (·.id))) acc).errors :=
    foldl_errors_emits _ (stepChecks_errors_append J.id (J.steps.map (·.id)))
      J.steps hst he
  have hjc : ∀ acc, e ∈ (journeyChecks (currentStepKeys prev) acc J).errors := by
    intro acc
    rw [journeyChecks_errors_eq]
    exact List.mem_append_left _ (hfold _)
  have hmem := foldl_errors_emits (journeyChecks (currentStepKeys prev))
    (journeyChecks_errors_append (currentStepKeys prev)) cand.journeys hJ hjc
  have hv : e ∈ (validate prev cand).errors := by
    rw [validate_errors_eq]
    exact hmem _
  exact validate_ok_false_of_mem hv

/-! ## Claim C10 -/

/-- C10: merge resolves edge targets against steps in every container, so a
new node can carry an outgoing id living only in another container
(the concrete ShareView example lands in "capture-via-share" but points at
"detail" in "main"); and every candidate in which some step's next entry has
no matching step id in its own container is rejected by the validator. -/
theorem c10_cross_container_edge_rejected :
    (∀ (prev cand : WorkflowDefs) (J : Journey) (st : Step) (n : String),
      J ∈ cand.journeys → st ∈ J.steps → n ∈ st.next →
      (J.steps.map (·.id)).contains n = false →
      (validate prev cand).ok = false) ∧
    ((∃ J ∈ (merge c10Defs c10Scan [c10View]).json.journeys,
        J.id = "capture-via-share" ∧
        ∃ st ∈ J.steps, st.id = "share-view" ∧ st.next = ["detail"] ∧
          (J.steps.map (·.id)).contains "detail" = false) ∧
      stepPresentIn c10Defs "main" "detail" = true ∧
      (validate c10Defs (merge c10Defs c10Scan [c10View]).json).ok = false) := by
  constructor
  · intro prev cand J st n hJ hst hn habs
    by_cases hid : st.id = ""
    · exact validate_ok_false_of_step_emission prev cand J st _ hJ hst
        (stepChecks_emits_missing_id hid)
    · exact validate_ok_false_of_step_emission prev cand J st _ hJ hst
        (stepChecks_emits_ref hid hn habs)
  · refine ⟨?_, by decide, by decide⟩
    decide

/-- C10 (witness): the universal rejection applied to the concrete merged
candidate. -/
theorem c10_cross_container_edge_rejected_witness :
    (validate c10Defs (merge c10Defs c10Scan [c10View]).json).ok = false :=
  c10_cross_container_edge_rejected.1 c10Defs (merge c10Defs c10Scan [c10View]).json
    { id := "capture-via-share", name := "Capture Via Share"
      description := "Auto-generated journey"
      steps := [{ id := "share-view", label := "TODO: ShareView"
                  screen := "ShareView"
                  swiftFile := some "ExampleAppShare/ShareView.swift"
                  type := .display, phase := "Unassigned", next := ["detail"]
                  edgeLabels := none, deprecated := false, needsReview := true }] }
    { id := "share-view", label := "TODO: ShareView", screen := "ShareView"
      swiftFile := some "ExampleAppShare/ShareView.swift"
      type := .display, phase := "Unassigned", next := ["detail"]
      edgeLabels := none, deprecated := false, needsReview := true }
    "detail" (by decide) (by decide) (by decide) (by decide)

/-! ## First-character lemmas: journey-level messages begin with J, the
container-delta messages begin with T -/

theorem head_append_of_head {s t : String} {c : Char}
    (h : s.data.head? = some c) : (s ++ t).data.head? = some c := by
  rw [String.data_append]
  cases hs : s.data with
  | nil => rw [hs] at h; cases h
  | cons a l =>
    rw [hs] at h
    simpa using h

theorem startsWith_head {e p : String} {c : Char} (hp : p.data.head? = some c)
    (h : startsWith e p = true) : e.data.head? = some c := by
  unfold startsWith at h
  rw [List.isPrefixOf_iff_prefix] at h
  obtain ⟨t, ht⟩ := h
  rw [← ht]
  cases hp2 : p.data with
  | nil => rw [hp2] at hp; cases hp
  | cons a l =>
    rw [hp2] at hp
    simpa using hp

theorem eq_of_mem_if_singleton {c : Prop} [Decidable c] {x e : String}
    (h : e ∈ (if c then [x] else [])) : e = x := by
  split at h
  · simpa using h
  · cases h

theorem stepChecks_headJ (jid : String) (ids : List String) :
    ∀ (acc : VAcc) (st : Step) (e : String),
      (∀ e2 ∈ acc.errors, e2.data.head? = some 'J') →
      e ∈ (stepChecks jid ids acc st).errors → e.data.head? = some 'J' := by
  intro acc st e hacc he
  simp only [stepChecks] at he
  split at he
  · rcases List.mem_append.mp he with h | h
    · exact hacc e h
    · rw [List.mem_singleton.mp h]
      apply head_append_of_head
      apply head_append_of_head
      rfl
  · rcases List.mem_append.mp he with h | h
    · exact hacc e h
    rcases List.mem_append.mp h with h | h
    rcases List.mem_append.mp h with h | h
    rcases List.mem_append.mp h with h | h
    · rw [eq_of_mem_if_singleton h]
      repeat apply head_append_of_head
      rfl
    · rw [eq_of_mem_if_singleton h]
      repeat apply head_append_of_head
      rfl
    · rw [eq_of_mem_if_singleton h]
      repeat apply head_append_of_head
      rfl
    · obtain ⟨n, _, hsome⟩ := List.mem_filterMap.mp h
      split at hsome
      · cases hsome
      · rw [← Option.some_inj.mp hsome]
        repeat apply head_append_of_head
        rfl

theorem removedErrs_headJ {ck : List String} {jid : String} {ids : List String}
    {e : String} (h : e ∈ removedErrs ck jid ids) : e.data.head? = some 'J' := by
  obtain ⟨key, _, hsome⟩ := List.mem_filterMap.mp h
  simp only [removedErrs] at hsome
  split at hsome
  · split at hsome
    · cases hsome
    · rw [← Option.some_inj.mp hsome]
      repeat apply head_append_of_head
      rfl
  · cases hsome

theorem journeyChecks_headJ (ck : List String) :
    ∀ (acc : VAcc) (j : Journey) (e : String),
      (∀ e2 ∈ acc.errors, e2.data.head? = some 'J') →
      e ∈ (journeyChecks ck acc j).errors → e.data.head? = some 'J' := by
  intro acc j e hacc he
  rw [journeyChecks_errors_eq] at he
  rcases List.mem_append.mp he with h | h
  · refine foldl_errors_all (stepChecks j.id (j.steps.map (·.id)))
      (fun e2 => e2.data.head? = some 'J')
      (stepChecks_headJ j.id (j.steps.map (·.id))) j.steps _ ?_ e h
    intro e2 he2
    rcases List.mem_append.mp he2 with h2 | h2
    · exact hacc e2 h2
    rcases List.mem_append.mp h2 with h2 | h2
    · rw [eq_of_mem_if_singleton h2]
      rfl
    · rw [eq_of_mem_if_singleton h2]
      repeat apply head_append_of_head
      rfl
  · exact removedErrs_headJ h

/-! ## Claim C7 -/

/-- C7: `validate` reports a container-count-delta error ("Too many journeys
…") exactly when the candidate has more than 3 containers added or more than
1 removed, net, relative to the previous graph; in particular 5 containers
against 1 (delta +4) is rejected. -/
theorem c7_delta_error_iff :
    (∀ current incoming : WorkflowDefs,
      (∃ e ∈ (validate current incoming).errors,
        startsWith e "Too many journeys" = true) ↔
      ((incoming.journeys.length : Int) - current.journeys.length > 3 ∨
       (incoming.journeys.length : Int) - current.journeys.length < -1)) ∧
    (validate c7Prev c7Cand).ok = false := by
  constructor
  · intro current incoming
    constructor
    · rintro ⟨e, he, hsw⟩
      by_contra hnot
      rcases not_or.mp hnot with ⟨h3, h1⟩
      have hhead : e.data.head? = some 'J' := by
        rw [validate_errors_eq] at he
        refine foldl_errors_all (journeyChecks (currentStepKeys current))
          (fun e2 => e2.data.head? = some 'J')
          (journeyChecks_headJ (currentStepKeys current)) incoming.journeys _ ?_ e he
        intro e2 he2
        rw [if_neg h3, if_neg h1] at he2
        cases he2
      have hT : e.data.head? = some 'T' := startsWith_head (by decide) hsw
      rw [hhead] at hT
      simp at hT
    · intro hd
      obtain ⟨t, ht⟩ := foldl_errors_mono (journeyChecks (currentStepKeys current))
        (journeyChecks_errors_append (currentStepKeys current)) incoming.journeys
        { globalIds := []
          errors :=
            (if (incoming.journeys.length : Int) - current.journeys.length > 3 then
              ["Too many journeys added in one cycle: +" ++
                intToString ((incoming.journeys.length : Int) - current.journeys.length) ++
                " (max +3)"]
             else []) ++
            (if (incoming.journeys.length : Int) - current.journeys.length < -1 then
              ["Too many journeys removed in one cycle: " ++
                intToString ((incoming.journeys.length : Int) - current.journeys.length) ++
                " (max -1)"]
             else []) }
      rcases hd with hgt | hlt
      · refine ⟨"Too many journeys added in one cycle: +" ++
          intToString ((incoming.journeys.length : Int) - current.journeys.length) ++
          " (max +3)", ?_, ?_⟩
        · rw [validate_errors_eq, ht]
          refine List.mem_append_left _ ?_
          rw [if_pos hgt]
          exact List.mem_append_left _ (List.mem_singleton.mpr rfl)
        · show (("Too many journeys" : String).data.isPrefixOf _) = true
          rw [List.isPrefixOf_iff_prefix, String.data_append, String.data_append]
          have hpre : ("Too many journeys" : String).data <+:
              ("Too many journeys added in one cycle: +" : String).data :=
            List.isPrefixOf_iff_prefix.mp (by decide)
          exact (hpre.trans (List.prefix_append _ _)).trans (List.prefix_append _ _)
      · refine ⟨"Too many journeys removed in one cycle: " ++
          intToString ((incoming.journeys.length : Int) - current.journeys.length) ++
          " (max -1)", ?_, ?_⟩
        · rw [validate_errors_eq, ht]
          refine List.mem_append_left _ ?_
          refine List.mem_append_right _ ?_
          rw [if_pos hlt]
          exact List.mem_singleton.mpr rfl
        · show (("Too many journeys" : String).data.isPrefixOf _) = true
          rw [List.isPrefixOf_iff_prefix, String.data_append, String.data_append]
          have hpre : ("Too many journeys" : String).data <+:
              ("Too many journeys removed in one cycle: " : String).data :=
            List.isPrefixOf_iff_prefix.mp (by decide)
          exact (hpre.trans (List.prefix_append _ _)).trans (List.prefix_append _ _)
  · decide

/-- C7 (witness): the iff instantiated on the +4 example produces a reported
delta error. -/
theorem c7_delta_error_iff_witness :
    ∃ e ∈ (validate c7Prev c7Cand).errors, startsWith e "Too many journeys" = true :=
  (c7_delta_error_iff.1 c7Prev c7Cand).mpr (Or.inl (by decide))

/-! ## Claim C3 -/

/-- C3: merging an empty diff returns the input graph unchanged, with an
empty change log and review count 0, for every graph and revision.  (The
never-mutates clause holds by construction: `merge` is a pure function of
`current`, mirroring the source's deep-clone-then-mutate discipline.) -/
theorem c3_merge_empty_diff (G : WorkflowDefs) (sha : String) :
    merge G { currentSHA := sha, newFiles := [], removedFiles := []
              modifiedFiles := [] } [] =
      { json := G, changes := [], reviewCount := 0 } := rfl

/-! ## Structural lemmas about merge's in-place updates -/

theorem updateFirstJourney_spec (jid : String) (f : Journey → Journey) :
    ∀ js : List Journey, js.any (fun j => j.id == jid) = true →
    ∃ pre j0 post, js = pre ++ j0 :: post ∧ j0.id = jid ∧
      updateFirstJourney js jid f = pre ++ f j0 :: post := by
  intro js
  induction js with
  | nil => intro h; simp at h
  | cons j rest ih =>
    intro h
    by_cases hj : (j.id == jid) = true
    · exact ⟨[], j, rest, rfl, eq_of_beq hj, by simp [updateFirstJourney, hj]⟩
    · have h2 : rest.any (fun j2 => j2.id == jid) = true := by
        simpa [hj] using h
      obtain ⟨pre, j0, post, e1, e2, e3⟩ := ih h2
      refine ⟨j :: pre, j0, post, by simp [e1], e2, ?_⟩
      simp [updateFirstJourney, hj, e3]

theorem ensureJourney_any (defs : WorkflowDefs) (jid : String) :
    ((ensureJourney defs jid).journeys.any fun j => j.id == jid) = true := by
  unfold ensureJourney
  split
  · assumption
  · simp

theorem ensureJourney_stepTotal (defs : WorkflowDefs) (jid : String) :
    stepTotal (ensureJourney defs jid) = stepTotal defs := by
  unfold ensureJourney stepTotal
  split
  · rfl
  · simp

/-! ## Claim C4 -/

/-- C4: one added file whose content defines entity WelcomeView with no
outgoing edges, where no existing node's resolved edge target carries that
screen name, no step tracks the path, the path matches no container-prefix
rule, and no input/decision/action/system markers are present — parsing
followed by merge yields exactly one new node: category display, container
"unassigned", needsReview, and a single add ChangeRecord. -/
theorem c4_welcome_view_added
    (current : WorkflowDefs) (path content sha dstr stat : String) (pv : ParsedView)
    (h1 : parseSwiftFile path content = some pv)
    (h2 : pv.structName = "WelcomeView")
    (h3 : pv.presentsTo = [])
    (hIn : testInputIndicators content = false)
    (hCond : testConditionalNav content = false)
    (hAct : testButton content = false ∨ testDismiss content = false)
    (hBody : testHasBody content = true)
    (hSys : testButton content = true ∨ testBackgroundOnly content = false)
    (hpre1 : startsWith path "ExampleApp/Sources/UI/Onboarding/" = false)
    (hpre2 : startsWith path "ExampleAppShare/" = false)
    (hpre3 : startsWith path "ExampleAppAction/" = false)
    (huntracked : findStepByFile current path = none)
    (hNoRef : ∀ j ∈ current.journeys, ∀ st ∈ j.steps, ∀ nid ∈ st.next, ∀ ns : Step,
      j.steps.find? (fun s => s.id == nid) = some ns → ns.screen ≠ "WelcomeView") :
    (merge current
      { currentSHA := sha
        newFiles := [{ path := path, content := content, diff := dstr, status := stat }]
        removedFiles := [], modifiedFiles := [] } [pv]).changes =
      [{ action := "add", journeyId := "unassigned", stepId := "welcome-view"
         detail := "Added WelcomeView from " ++ path }] ∧
    (merge current
      { currentSHA := sha
        newFiles := [{ path := path, content := content, diff := dstr, status := stat }]
        removedFiles := [], modifiedFiles := [] } [pv]).reviewCount = 1 ∧
    stepTotal (merge current
      { currentSHA := sha
        newFiles := [{ path := path, content := content, diff := dstr, status := stat }]
        removedFiles := [], modifiedFiles := [] } [pv]).json = stepTotal current + 1 ∧
    ∃ j ∈ (merge current
      { currentSHA := sha
        newFiles := [{ path := path, content := content, diff := dstr, status := stat }]
        removedFiles := [], modifiedFiles := [] } [pv]).json.journeys,
      j.id = "unassigned" ∧
      ({ id := "welcome-view", label := "TODO: WelcomeView", screen := "WelcomeView"
         swiftFile := some path, type := StepType.display, phase := "Unassigned"
         next := [], edgeLabels := none, deprecated := false
         needsReview := true } : Step) ∈ j.steps := by
  -- unpack the parse result into field equations
  simp only [parseSwiftFile] at h1
  cases hsn : extractStructName content with
  | none => rw [hsn] at h1; cases h1
  | some sn =>
    rw [hsn] at h1
    have hpv := Option.some_inj.mp h1
    have hit : pv.inferredType = inferType content := by rw [← hpv]
    -- the inferred category is display
    have hdisp : pv.inferredType = .display := by
      rw [hit]
      rcases hAct with hA | hA
      · rcases hSys with hS | hS
        · rw [hA] at hS; cases hS
        · simp [inferType, hIn, hCond, hBody, hA, hS]
      · rcases hSys with hS | hS
        · simp [inferType, hIn, hCond, hBody, hA, hS]
        · simp [inferType, hIn, hCond, hBody, hA, hS]
    have hfp : pv.filePath = path := by rw [← hpv]
    -- the container choice is "unassigned"
    have hb1 : current.journeys.find? (fun journey =>
        journey.steps.any fun step => step.next.any fun nextId =>
          match journey.steps.find? (fun s => s.id == nextId) with
          | some nextStep => nextStep.screen == "WelcomeView"
          | none => false) = none := by
      rw [List.find?_eq_none]
      intro j hj hp
      rw [List.any_eq_true] at hp
      obtain ⟨st, hst, hp2⟩ := hp
      rw [List.any_eq_true] at hp2
      obtain ⟨nid, hnid, hp3⟩ := hp2
      cases hfind : j.steps.find? (fun s => s.id == nid) with
      | none => rw [hfind] at hp3; cases hp3
      | some ns =>
        rw [hfind] at hp3
        exact hNoRef j hj st hst nid hnid ns hfind (eq_of_beq hp3)
    have hb2 : current.journeys.find? (fun journey =>
        journey.steps.any fun _ => false) = none := by
      rw [List.find?_eq_none]
      intro j hj hp
      simp at hp
    have hassign : assignJourney path "WelcomeView" pv current = "unassigned" := by
      simp only [assignJourney, hpre1, hpre2, hpre3, Bool.false_eq_true, if_false, h2, h3,
        List.any_nil, Bool.and_false, hb1, hb2]
    have hpbp : parsedByPath [pv] path = some pv := by
      simp [parsedByPath, hfp]
    have hslug : slugify "WelcomeView" = "welcome-view" := by decide
    have hlab : "TODO: " ++ "WelcomeView" = "TODO: WelcomeView" := by decide
    have hdet : ("Added " ++ "WelcomeView") ++ " from " = "Added WelcomeView from " := by
      decide
    simp only [merge, List.foldl_cons, List.foldl_nil, mergeNewFile, hpbp, huntracked,
      Option.isSome_none, Bool.false_eq_true, if_false, h2, hassign, resolveNext, h3,
      hdisp, hslug, hlab, hdet, List.nil_append]
    obtain ⟨pre, j0, post, e1, e2, e3⟩ :=
      updateFirstJourney_spec "unassigned"
        (fun j => { j with steps := j.steps ++
          [{ id := "welcome-view", label := "TODO: WelcomeView"
             screen := "WelcomeView", swiftFile := some path
             type := StepType.display, phase := "Unassigned", next := []
             edgeLabels := none, deprecated := false, needsReview := true }] })
        (ensureJourney current "unassigned").journeys
        (ensureJourney_any current "unassigned")
    have htot : stepTotal (ensureJourney current "unassigned") = stepTotal current :=
      ensureJourney_stepTotal current "unassigned"
    refine ⟨by simp, by simp, ?_, ?_⟩
    · simp only [stepTotal] at htot ⊢
      rw [e3, ← htot, e1]
      simp [List.map_append, List.sum_append]
      omega
    · rw [e3]
      refine ⟨{ j0 with steps := j0.steps ++
        [{ id := "welcome-view", label := "TODO: WelcomeView"
           screen := "WelcomeView", swiftFile := some path
           type := StepType.display, phase := "Unassigned", next := []
           edgeLabels := none, deprecated := false, needsReview := true }] }, ?_, e2, ?_⟩
      · exact List.mem_append_right _ (List.mem_cons_self _ _)
      · exact List.mem_append_right _ (List.mem_singleton.mpr rfl)

/-- C4 (witness): the scenario instantiated on a concrete file against an
empty graph. -/
theorem c4_welcome_view_added_witness :
    ∃ j ∈ (merge c4Current
      { currentSHA := "sha"
        newFiles := [{ path := c4Path, content := c4Content, diff := "", status := "A" }]
        removedFiles := [], modifiedFiles := [] }
      [{ structName := "WelcomeView", filePath := c4Path, presentsTo := []
         inferredType := StepType.display }]).json.journeys,
      j.id = "unassigned" ∧
      ({ id := "welcome-view", label := "TODO: WelcomeView", screen := "WelcomeView"
         swiftFile := some c4Path, type := StepType.display, phase := "Unassigned"
         next := [], edgeLabels := none, deprecated := false
         needsReview := true } : Step) ∈ j.steps :=
  (c4_welcome_view_added c4Current c4Path c4Content "sha" "" "A"
    { structName := "WelcomeView", filePath := c4Path, presentsTo := []
      inferredType := StepType.display }
    (by decide) rfl rfl (by decide) (by decide) (Or.inl (by decide)) (by decide)
    (Or.inr (by decide)) (by decide) (by decide) (by decide) (by decide)
    (fun j hj => absurd hj (List.not_mem_nil j))).2.2.2

/-! ## Lemmas about the in-place step update -/

theorem updateFirstStep_find (fp : String) (f : Step → Step)
    (hf : ∀ st, (f st).swiftFile = st.swiftFile) :
    ∀ (steps : List Step) (s : Step),
      steps.find? (fun st => st.swiftFile == some fp) = some s →
      (updateFirstStep steps fp f).find? (fun st => st.swiftFile == some fp) =
        some (f s) := by
  intro steps
  induction steps with
  | nil => intro s h; cases h
  | cons st rest ih =>
    intro s h
    by_cases hst : (st.swiftFile == some fp) = true
    · have hh : (st :: rest).find? (fun x => x.swiftFile == some fp) = some st := by
        simp [List.find?_cons_of_pos, hst]
      rw [hh] at h
      have hs : st = s := Option.some_inj.mp h
      subst hs
      simp only [updateFirstStep]
      rw [if_pos hst]
      have hfs : ((f st).swiftFile == some fp) = true := by rw [hf st]; exact hst
      simp [List.find?_cons_of_pos, hfs]
    · have hh : (st :: rest).find? (fun x => x.swiftFile == some fp) =
          rest.find? (fun x => x.swiftFile == some fp) := by
        simp [List.find?_cons_of_neg, hst]
      rw [hh] at h
      simp only [updateFirstStep]
      rw [if_neg hst]
      have hh2 : (st :: updateFirstStep rest fp f).find?
          (fun x => x.swiftFile == some fp) =
          (updateFirstStep rest fp f).find? (fun x => x.swiftFile == some fp) := by
        simp [List.find?_cons_of_neg, hst]
      rw [hh2]
      exact ih s h

theorem updateFirstStep_length (fp : String) (f : Step → Step) :
    ∀ steps : List Step, (updateFirstStep steps fp f).length = steps.length := by
  intro steps
  induction steps with
  | nil => rfl
  | cons st rest ih =>
    simp only [updateFirstStep]
    by_cases hst : (st.swiftFile == some fp) = true
    · rw [if_pos hst]
      rfl
    · rw [if_neg hst]
      simp [ih]

theorem updateFirstStep_map_id (fp : String) (f : Step → Step)
    (hf : ∀ st, (f st).id = st.id) :
    ∀ steps : List Step,
      (updateFirstStep steps fp f).map (fun s => s.id) = steps.map (fun s => s.id) := by
  intro steps
  induction steps with
  | nil => rfl
  | cons st rest ih =>
    simp only [updateFirstStep]
    by_cases hst : (st.swiftFile == some fp) = true
    · rw [if_pos hst]
      simp [hf]
    · rw [if_neg hst]
      simp [ih]

theorem updateStepByFile_find (fp : String) (f : Step → Step)
    (hf : ∀ st, (f st).swiftFile = st.swiftFile) :
    ∀ (js : List Journey) (j : Journey) (s : Step),
      findStepByFileL js fp = some (j, s) →
      findStepByFileL (updateStepByFile js fp f) fp =
        some ({ j with steps := updateFirstStep j.steps fp f }, f s) := by
  intro js
  induction js with
  | nil => intro j s h; cases h
  | cons j0 rest ih =>
    intro j s h
    rw [findStepByFileL, List.findSome?_cons] at h
    cases hfind : j0.steps.find? (fun st => st.swiftFile == some fp) with
    | some s0 =>
      rw [hfind] at h
      simp only [Option.map_some'] at h
      have hany : (j0.steps.any fun st => st.swiftFile == some fp) = true := by
        rw [List.any_eq_true]
        have hmem := List.mem_of_find?_eq_some hfind
        have hp := List.find?_some hfind
        exact ⟨s0, hmem, hp⟩
      have hj1 : j0 = j := congrArg Prod.fst (Option.some_inj.mp h)
      have hj2 : s0 = s := congrArg Prod.snd (Option.some_inj.mp h)
      subst hj1; subst hj2
      simp only [updateStepByFile]
      rw [if_pos hany]
      rw [findStepByFileL, List.findSome?_cons]
      rw [updateFirstStep_find fp f hf j0.steps s0 hfind]
      rfl
    | none =>
      rw [hfind] at h
      simp only [Option.map_none'] at h
      have hany : (j0.steps.any fun st => st.swiftFile == some fp) = false := by
        rw [Bool.eq_false_iff]
        intro hc
        rw [List.any_eq_true] at hc
        obtain ⟨s0, hs0, hp0⟩ := hc
        exact (List.find?_eq_none.mp hfind s0 hs0) hp0
      simp only [updateStepByFile]
      rw [if_neg (by rw [hany]; exact Bool.false_ne_true)]
      rw [findStepByFileL, List.findSome?_cons, hfind]
      exact ih j s h

theorem stepPairsL_cons (j : Journey) (js : List Journey) :
    stepPairsL (j :: js) = (j.steps.map fun s => (j.id, s.id)) ++ stepPairsL js := by
  simp [stepPairsL]

theorem updateStepByFile_lengths (fp : String) (f : Step → Step) :
    ∀ js : List Journey,
      (updateStepByFile js fp f).map (fun j => j.steps.length) =
        js.map (fun j => j.steps.length) := by
  intro js
  induction js with
  | nil => rfl
  | cons j rest ih =>
    simp only [updateStepByFile]
    by_cases ha : (j.steps.any fun st => st.swiftFile == some fp) = true
    · rw [if_pos ha]
      simp [updateFirstStep_length]
    · rw [if_neg ha]
      simp [ih]

theorem updateStepByFile_pairs (fp : String) (f : Step → Step)
    (hf : ∀ st, (f st).id = st.id) :
    ∀ js : List Journey, stepPairsL (updateStepByFile js fp f) = stepPairsL js := by
  intro js
  induction js with
  | nil => rfl
  | cons j rest ih =>
    simp only [updateStepByFile]
    by_cases ha : (j.steps.any fun st => st.swiftFile == some fp) = true
    · rw [if_pos ha, stepPairsL_cons, stepPairsL_cons]
      have h2 : ∀ steps : List Step, (steps.map fun s => (j.id, s.id)) =
          (steps.map fun s => s.id).map fun i => (j.id, i) := by
        intro steps; rw [List.map_map]; rfl
      rw [show ({ j with steps := updateFirstStep j.steps fp f } : Journey).steps =
        updateFirstStep j.steps fp f from rfl]
      rw [h2, h2, updateFirstStep_map_id fp f hf j.steps]
    · rw [if_neg ha, stepPairsL_cons, stepPairsL_cons, ih]

theorem foldl_preserves {α β : Type} (f : β → α → β) (P : β → Prop)
    (hf : ∀ b a, P b → P (f b a)) :
    ∀ (l : List α) (b : β), P b → P (l.foldl f b) := by
  intro l
  induction l with
  | nil => exact fun b h => h
  | cons a as ih => exact fun b h => ih (f b a) (hf b a h)

theorem stepPairsL_append (a b : List Journey) :
    stepPairsL (a ++ b) = stepPairsL a ++ stepPairsL b := by
  simp [stepPairsL]

theorem stepPairsL_mono_append (js : List Journey) (j : Journey)
    {p : String × String} (hp : p ∈ stepPairsL js) : p ∈ stepPairsL (js ++ [j]) := by
  rw [stepPairsL_append]
  exact List.mem_append_left _ hp

theorem pairs_updateStep (acc : MergeAcc) (fpath : String) (f : Step → Step)
    (hf : ∀ st, (f st).id = st.id) {p : String × String}
    (hacc : p ∈ stepPairsL acc.defs.journeys) :
    p ∈ stepPairsL (updateStepByFile acc.defs.journeys fpath f) := by
  rw [updateStepByFile_pairs fpath f hf]
  exact hacc

theorem ensureJourney_pairs (defs : WorkflowDefs) (jid : String)
    {p : String × String} (hp : p ∈ stepPairsL defs.journeys) :
    p ∈ stepPairsL (ensureJourney defs jid).journeys := by
  unfold ensureJourney
  split
  · exact hp
  · exact stepPairsL_mono_append _ _ hp

theorem updateFirstJourney_pairs_mono (jid : String) (st : Step) :
    ∀ js : List Journey, js.any (fun j => j.id == jid) = true →
    ∀ p ∈ stepPairsL js,
      p ∈ stepPairsL (updateFirstJourney js jid
        fun j => { j with steps := j.steps ++ [st] }) := by
  intro js hany p hp
  obtain ⟨pre, j0, post, e1, e2, e3⟩ := updateFirstJourney_spec jid _ js hany
  rw [e3]
  rw [e1] at hp
  rw [stepPairsL_append, stepPairsL_cons] at hp ⊢
  rcases List.mem_append.mp hp with h | h
  · exact List.mem_append_left _ h
  rcases List.mem_append.mp h with h | h
  · refine List.mem_append_right _ (List.mem_append_left _ ?_)
    show p ∈ (j0.steps ++ [st]).map fun s => (j0.id, s.id)
    rw [List.map_append]
    exact List.mem_append_left _ h
  · exact List.mem_append_right _ (List.mem_append_right _ h)

/-- `merge` never removes a node: every (container id, node id) pair of the
input graph is still present in the candidate, whatever the diff. -/
theorem merge_preserves_pairs (current : WorkflowDefs) (scanRes : ScanResult)
    (pvs : List ParsedView) :
    ∀ p ∈ stepPairsL current.journeys,
      p ∈ stepPairsL (merge current scanRes pvs).json.journeys := by
  intro p hp
  have h1 : ∀ (acc : MergeAcc) (file : ChangedFile),
      p ∈ stepPairsL acc.defs.journeys →
      p ∈ stepPairsL (mergeNewFile pvs acc file).defs.journeys := by
    intro acc file hacc
    simp only [mergeNewFile]
    split
    · exact hacc
    · split
      · exact hacc
      · exact updateFirstJourney_pairs_mono _ _ _ (ensureJourney_any _ _) p
          (ensureJourney_pairs _ _ hacc)
  have h2 : ∀ (acc : MergeAcc) (fpath : String),
      p ∈ stepPairsL acc.defs.journeys →
      p ∈ stepPairsL (mergeRemovedFile acc fpath).defs.journeys := by
    intro acc fpath hacc
    simp only [mergeRemovedFile]
    split
    · exact hacc
    · split
      · exact hacc
      · refine pairs_updateStep acc _ _ ?_ hacc
        intro st
        rfl
  have h3 : ∀ (acc : MergeAcc) (file : ChangedFile),
      p ∈ stepPairsL acc.defs.journeys →
      p ∈ stepPairsL (mergeModifiedFile pvs acc file).defs.journeys := by
    intro acc file hacc
    simp only [mergeModifiedFile]
    split
    · exact hacc
    · split
      · exact hacc
      · split
        · exact hacc
        · refine pairs_updateStep acc _ _ ?_ hacc
          intro st
          rfl
  simp only [merge]
  exact foldl_preserves (mergeModifiedFile pvs)
    (fun acc => p ∈ stepPairsL acc.defs.journeys) h3 scanRes.modifiedFiles _
    (foldl_preserves mergeRemovedFile _ h2 scanRes.removedFiles _
      (foldl_preserves (mergeNewFile pvs) _ h1 scanRes.newFiles _ hp))


/-! ## Claim C6 -/

/-- C6: one removed file — if the tracked step is live, it is tombstoned in
place with exactly one deprecate ChangeRecord; if it is already tombstoned,
nothing changes and no record is emitted; and in no case whatsoever does
merge remove a node from the graph. -/
theorem c6_removed_file_tombstones :
    (∀ (defs : WorkflowDefs) (fp sha : String) (j : Journey) (s : Step),
      findStepByFile defs fp = some (j, s) → s.deprecated = false →
      ((merge defs { currentSHA := sha, newFiles := [], removedFiles := [fp], modifiedFiles := [] } []).changes =
        [{ action := "deprecate", journeyId := j.id, stepId := s.id
           detail := "Marked deprecated (file removed: " ++ fp ++ ")" }] ∧
       findStepByFile (merge defs { currentSHA := sha, newFiles := [], removedFiles := [fp], modifiedFiles := [] } []).json fp =
        some ({ j with steps := updateFirstStep j.steps fp (fun st => { st with deprecated := true }) }, { s with deprecated := true }) ∧
       stepTotal (merge defs { currentSHA := sha, newFiles := [], removedFiles := [fp], modifiedFiles := [] } []).json = stepTotal defs)) ∧
    (∀ (defs : WorkflowDefs) (fp sha : String) (j : Journey) (s : Step),
      findStepByFile defs fp = some (j, s) → s.deprecated = true →
      merge defs { currentSHA := sha, newFiles := [], removedFiles := [fp], modifiedFiles := [] } [] =
        { json := defs, changes := [], reviewCount := 0 }) ∧
    (∀ (current : WorkflowDefs) (scanRes : ScanResult) (pvs : List ParsedView)
       (p : String × String),
      p ∈ stepPairsL current.journeys →
      p ∈ stepPairsL (merge current scanRes pvs).json.journeys) := by
  refine ⟨?_, ?_, merge_preserves_pairs⟩
  · intro defs fp sha j s hfound hdep
    have hne : ¬ s.deprecated = true := by rw [hdep]; exact Bool.false_ne_true
    simp only [merge, List.foldl_cons, List.foldl_nil, mergeRemovedFile, hfound,
      List.nil_append]
    rw [if_neg hne]
    refine ⟨rfl, ?_, ?_⟩
    · exact updateStepByFile_find fp (fun st => { st with deprecated := true })
        (fun st => rfl) defs.journeys j s hfound
    · simp only [stepTotal]
      rw [updateStepByFile_lengths]
  · intro defs fp sha j s hfound hdep
    simp only [merge, List.foldl_cons, List.foldl_nil, mergeRemovedFile, hfound]
    rw [if_pos hdep]

/-- C6 (witness): a live tracked step gets tombstoned with one record, and
removing an already-tombstoned step's path changes nothing. -/
theorem c6_removed_file_tombstones_witness :
    (merge c6Defs { currentSHA := "x", newFiles := [], removedFiles := ["x.swift"], modifiedFiles := [] } []).changes =
      [{ action := "deprecate", journeyId := "n", stepId := "note"
         detail := "Marked deprecated (file removed: " ++ "x.swift" ++ ")" }] ∧
    merge c6Tomb { currentSHA := "x", newFiles := [], removedFiles := ["x.swift"], modifiedFiles := [] } [] =
      { json := c6Tomb, changes := [], reviewCount := 0 } :=
  ⟨(c6_removed_file_tombstones.1 c6Defs "x.swift" "x" (c6Defs.journeys.get ⟨0, by decide⟩)
      c6Step (by decide) rfl).1,
   c6_removed_file_tombstones.2.1 c6Tomb "x.swift" "x" (c6Tomb.journeys.get ⟨0, by decide⟩)
      { c6Step with deprecated := true } (by decide) rfl⟩

/-! ## Claim C5 -/

/-- C5: one modified file tracked by an existing step — if the recomputed
outgoing-id list differs, it replaces the stored one with exactly one
update-edges ChangeRecord, truncating edgeLabels when longer than the new
list; if unchanged, nothing happens; and the concrete Yes/No scenario
shrinks to outgoingIds ["b"], edgeLabels ["Yes"]. -/
theorem c5_modified_file_updates_edges :
    (∀ (defs : WorkflowDefs) (file : ChangedFile) (sha : String) (pv : ParsedView)
       (j : Journey) (s : Step),
      pv.filePath = file.path →
      findStepByFile defs file.path = some (j, s) →
      s.next ≠ resolveNext pv defs →
      ((merge defs { currentSHA := sha, newFiles := [], removedFiles := [], modifiedFiles := [file] } [pv]).changes.map (fun c => c.action) =
        ["update-edges"] ∧
       ∃ jj ss, findStepByFile (merge defs { currentSHA := sha, newFiles := [], removedFiles := [], modifiedFiles := [file] } [pv]).json file.path =
            some (jj, ss) ∧
         jj.id = j.id ∧ ss.id = s.id ∧ ss.next = resolveNext pv defs ∧
         (s.edgeLabels = none → ss.edgeLabels = none) ∧
         (∀ ls, s.edgeLabels = some ls → ss.edgeLabels =
            (if (resolveNext pv defs).length < ls.length then
              some (ls.take (resolveNext pv defs).length)
             else some ls)))) ∧
    (∀ (defs : WorkflowDefs) (file : ChangedFile) (sha : String) (pv : ParsedView)
       (j : Journey) (s : Step),
      pv.filePath = file.path →
      findStepByFile defs file.path = some (j, s) →
      s.next = resolveNext pv defs →
      merge defs { currentSHA := sha, newFiles := [], removedFiles := [], modifiedFiles := [file] } [pv] =
        { json := defs, changes := [], reviewCount := 0 }) ∧
    (∃ jj ss, findStepByFile (merge c5Defs { currentSHA := "x", newFiles := [], removedFiles := [], modifiedFiles := [c5File] } [c5View]).json "a.swift" =
          some (jj, ss) ∧
      ss.next = ["b"] ∧ ss.edgeLabels = some ["Yes"]) := by
  have hmain : ∀ (defs : WorkflowDefs) (file : ChangedFile) (sha : String)
      (pv : ParsedView) (j : Journey) (s : Step),
      pv.filePath = file.path →
      findStepByFile defs file.path = some (j, s) →
      s.next ≠ resolveNext pv defs →
      ((merge defs { currentSHA := sha, newFiles := [], removedFiles := [], modifiedFiles := [file] } [pv]).changes.map (fun c => c.action) =
        ["update-edges"] ∧
       ∃ jj ss, findStepByFile (merge defs { currentSHA := sha, newFiles := [], removedFiles := [], modifiedFiles := [file] } [pv]).json file.path =
            some (jj, ss) ∧
         jj.id = j.id ∧ ss.id = s.id ∧ ss.next = resolveNext pv defs ∧
         (s.edgeLabels = none → ss.edgeLabels = none) ∧
         (∀ ls, s.edgeLabels = some ls → ss.edgeLabels =
            (if (resolveNext pv defs).length < ls.length then
              some (ls.take (resolveNext pv defs).length)
             else some ls))) := by
    intro defs file sha pv j s hfp hfound hne
    have hpbp : parsedByPath [pv] file.path = some pv := by
      simp [parsedByPath, hfp]
    have hbeq : (s.next == resolveNext pv defs) = false :=
      beq_eq_false_iff_ne.mpr hne
    simp only [merge, List.foldl_cons, List.foldl_nil, mergeModifiedFile, hpbp, hfound,
      List.nil_append]
    rw [if_neg (by rw [hbeq]; exact Bool.false_ne_true)]
    refine ⟨rfl, ?_⟩
    have hfind2 := updateStepByFile_find file.path
      (fun st =>
        { st with
          next := resolveNext pv defs
          edgeLabels :=
            match st.edgeLabels with
            | some ls =>
              if (resolveNext pv defs).length < ls.length then
                some (ls.take (resolveNext pv defs).length)
              else some ls
            | none => none })
      (fun st => rfl) defs.journeys j s hfound
    refine ⟨_, _, hfind2, rfl, rfl, rfl, ?_, ?_⟩
    · intro h
      simp [h]
    · intro ls h
      simp [h]
  refine ⟨hmain, ?_, ?_⟩
  · intro defs file sha pv j s hfp hfound heq
    have hpbp : parsedByPath [pv] file.path = some pv := by
      simp [parsedByPath, hfp]
    simp only [merge, List.foldl_cons, List.foldl_nil, mergeModifiedFile, hpbp, hfound]
    rw [if_pos (beq_iff_eq.mpr heq)]
  · obtain ⟨-, jj, ss, hfind, -, -, hnext, -, hsome⟩ :=
      hmain c5Defs c5File "x" c5View (c5Defs.journeys.get ⟨0, by decide⟩) c5StepA
        rfl (by decide) (by decide)
    refine ⟨jj, ss, hfind, ?_, ?_⟩
    · rw [hnext]; decide
    · rw [hsome ["Yes", "No"] rfl]
      decide


/-- C5 (witness): the concrete Yes/No scenario produces exactly one
update-edges change record. -/
theorem c5_modified_file_updates_edges_witness :
    (merge c5Defs { currentSHA := "x", newFiles := [], removedFiles := [], modifiedFiles := [c5File] } [c5View]).changes.map (fun c => c.action) =
      ["update-edges"] :=
  (c5_modified_file_updates_edges.1 c5Defs c5File "x" c5View
    (c5Defs.journeys.get ⟨0, by decide⟩) c5StepA rfl (by decide) (by decide)).1

/-! ## Claim C8 -/

theorem stepPresentIn_updateAppend (defs : WorkflowDefs) (jid : String) (st : Step)
    (h : (defs.journeys.any fun j => j.id == jid) = true) :
    stepPresentIn { defs with journeys := updateFirstJourney defs.journeys jid (fun j => { j with steps := j.steps ++ [st] }) } jid st.id = true := by
  obtain ⟨pre, j0, post, e1, e2, e3⟩ := updateFirstJourney_spec jid
    (fun j => { j with steps := j.steps ++ [st] }) defs.journeys h
  simp only [stepPresentIn, e3]
  refine List.any_eq_true.mpr ⟨{ j0 with steps := j0.steps ++ [st] }, ?_, ?_⟩
  · exact List.mem_append_right _ (List.mem_cons_self _ _)
  · simp [e2]

/-- C8 (counterexample): the cascade exactly as the claim words it — the
path rule table, then the resolved-target rule, else "unassigned" — puts
NewView in "unassigned", but the implementation assigns it to "main"
through a further rule the claim omits: the new descriptor presents to the
screen of an existing node of "main".  merge records the add against
"main" accordingly. -/
theorem c8_presents_to_rule_missing :
    c8ClaimAssign "Other/NewView.swift" "NewView" c8View c8Defs = "unassigned" ∧
    assignJourney "Other/NewView.swift" "NewView" c8View c8Defs = "main" ∧
    (merge c8Defs c8Scan [c8View]).changes.map (fun c => c.journeyId) =
      ["main"] := by decide

/-- C8: amended container cascade.  First, the implemented `assignJourney`
agrees pointwise with the four-rule cascade `amendedAssignJourney` — the
path rule table, the resolved-target rule, the presents-to rule, else
"unassigned".  Second, for an added file carrying a descriptor whose path
no existing node tracks, merge records exactly one add change naming the
container `assignJourney` chooses, and the new node (id the slug of the
struct name) is present in that container of the result. -/
theorem c8_container_cascade :
    (∀ (fp sn : String) (pv : ParsedView) (defs : WorkflowDefs),
      amendedAssignJourney fp sn pv defs = assignJourney fp sn pv defs) ∧
    (∀ (defs : WorkflowDefs) (file : ChangedFile) (pv : ParsedView) (sha : String),
      pv.filePath = file.path →
      findStepByFile defs file.path = none →
      ((merge defs { currentSHA := sha, newFiles := [file], removedFiles := [], modifiedFiles := [] } [pv]).changes.map (fun c => c.journeyId) =
        [assignJourney file.path pv.structName pv defs] ∧
       stepPresentIn (merge defs { currentSHA := sha, newFiles := [file], removedFiles := [], modifiedFiles := [] } [pv]).json
         (assignJourney file.path pv.structName pv defs)
         (slugify pv.structName) = true)) := by
  constructor
  · intro fp sn pv defs
    rfl
  · intro defs file pv sha hfp hnone
    have hpbp : parsedByPath [pv] file.path = some pv := by
      simp [parsedByPath, hfp]
    have hns : (findStepByFile defs file.path).isSome = false := by
      rw [hnone]; rfl
    simp only [merge, List.foldl_cons, List.foldl_nil, mergeNewFile, hpbp, hns,
      Bool.false_eq_true, if_false, List.nil_append]
    refine ⟨by simp, ?_⟩
    exact stepPresentIn_updateAppend
      (ensureJourney defs (assignJourney file.path pv.structName pv defs))
      (assignJourney file.path pv.structName pv defs) _
      (ensureJourney_any defs (assignJourney file.path pv.structName pv defs))

/-- C8 (witness): the merge-level clause instantiated at the NewView
scenario: the add record names the container the cascade chooses. -/
theorem c8_container_cascade_witness :
    (merge c8Defs { currentSHA := "x", newFiles := [c8File], removedFiles := [], modifiedFiles := [] } [c8View]).changes.map (fun c => c.journeyId) =
      [assignJourney "Other/NewView.swift" "NewView" c8View c8Defs] :=
  (c8_container_cascade.2 c8Defs c8File c8View "x" rfl (by decide)).1

/-! ## Claim C9 -/

/-- C9 (counterexample): a watched added file whose content fetch throws is
silently dropped — scan succeeds with an empty change set instead of
reporting the failure, although both tree-wide commands succeeded and the
name-status output lists the file. -/
theorem c9_content_fetch_failure_skipped :
    isWatched "ExampleApp/ContentView.swift" = true ∧
    c9Env.showFile "ExampleApp/ContentView.swift" = .error "boom" ∧
    scan c9Env (some "old") =
      .ok { currentSHA := "abc", newFiles := [], removedFiles := [], modifiedFiles := [] } := by decide

/-- C9: failure semantics of scan.  Tree-wide failures are fatal: a
rev-parse error propagates as-is, and when the no-change fast path is not
taken a name-status diff error propagates as-is.  Whenever both tree-wide
commands succeed, scan returns ok — a per-file failure never aborts it: a
watched changed file whose content fetch throws is skipped rather than
reported. -/
theorem c9_scan_failure_semantics :
    (∀ (env : GitEnv) (ls : Option String) (e : String),
      env.revParse = .error e → scan env ls = .error e) ∧
    (∀ (env : GitEnv) (ls : Option String) (out e : String),
      env.revParse = .ok out → env.diffNameStatus = .error e →
      lastFalsy ls = false → (ls == some (jsTrim out)) = false →
      scan env ls = .error e) ∧
    (∀ (env : GitEnv) (ls : Option String) (out dout : String),
      env.revParse = .ok out → env.diffNameStatus = .ok dout →
      exceptOk (scan env ls) = true) ∧
    (∀ (env : GitEnv) (acc : ScanResult) (statusCode fp e : String),
      (fp == "") = false → isWatched fp = true →
      (String.mk (statusCode.data.take 1) == "D") = false →
      env.showFile fp = .error e →
      scanParts env acc [statusCode, fp] = acc) := by
  refine ⟨?_, ?_, ?_, ?_⟩
  · intro env ls e h
    simp [scan, h]
  · intro env ls out e hrev hdiff hfalsy hne
    simp [scan, hrev, hfalsy, hne, hdiff]
  · intro env ls out dout hrev hdiff
    simp only [scan, hrev]
    split
    · rfl
    · simp [hdiff, exceptOk]
  · intro env acc statusCode fp e hne hw hd hshow
    simp [scanParts, jsJoin, hne, hw, hd, hshow]

/-- C9 (witness): the rev-parse clause at the throwing environment, and the
skip clause at the dropped ContentView file. -/
theorem c9_scan_failure_semantics_witness :
    scan c9WEnv (some "old") = .error "unreachable" ∧
    scanParts c9Env { currentSHA := "abc", newFiles := [], removedFiles := [], modifiedFiles := [] } ["A", "ExampleApp/ContentView.swift"] =
      { currentSHA := "abc", newFiles := [], removedFiles := [], modifiedFiles := [] } :=
  ⟨c9_scan_failure_semantics.1 c9WEnv (some "old") "unreachable" rfl,
   c9_scan_failure_semantics.2.2.2 c9Env
     { currentSHA := "abc", newFiles := [], removedFiles := [], modifiedFiles := [] } "A" "ExampleApp/ContentView.swift" "boom"
     (by decide) (by decide) (by decide) rfl⟩

/-! ## Scheduler cursor lemmas -/

theorem tick_cursor (env : CycleEnv) (p : DaemonState × Option String) :
    (tick env p).2 = (cycleCommit env p.1).or p.2 := by
  unfold tick cycleCommit
  by_cases hs : p.1.status = DaemonStatus.running
  · rw [if_pos hs, if_pos hs]
    unfold pollCycle
    cases hscan : scan env.git p.1.lastCommit with
    | error e => rfl
    | ok r =>
      dsimp only
      by_cases h0 : totalChanged r = 0
      · rw [if_pos h0, if_pos h0]
        rfl
      · rw [if_neg h0, if_neg h0]
        cases hload : loadWorkflows env with
        | error e => rfl
        | ok ds =>
          dsimp only
          by_cases hv : (validate ds (merge ds r (parsedViewsOf r)).json).ok = true
          · rw [if_pos hv, if_pos hv]
            rfl
          · rw [if_neg hv, if_neg hv]
            rfl
  · rw [if_neg hs, if_neg hs]
    rfl

theorem tick_lastCommit_uncommitted (env : CycleEnv) (s : DaemonState)
    (store : Option String) (h : cycleCommit env s = none) :
    (tick env (s, store)).1.lastCommit = s.lastCommit := by
  unfold cycleCommit at h
  unfold tick
  dsimp only
  by_cases hs : s.status = DaemonStatus.running
  · rw [if_pos hs] at h
    rw [if_pos hs]
    unfold pollCycle
    cases hscan : scan env.git s.lastCommit with
    | error e => rfl
    | ok r =>
      simp only [hscan] at h
      dsimp only
      by_cases h0 : totalChanged r = 0
      · rw [if_pos h0] at h
        exact absurd h (by simp)
      · rw [if_neg h0] at h
        rw [if_neg h0]
        cases hload : loadWorkflows env with
        | error e => rfl
        | ok ds =>
          simp only [hload] at h
          dsimp only
          by_cases hv : (validate ds (merge ds r (parsedViewsOf r)).json).ok = true
          · rw [if_pos hv] at h
            exact absurd h (by simp)
          · rw [if_neg hv]
            rfl
  · rw [if_neg hs]

theorem cycleCommit_eq_some (env : CycleEnv) (s : DaemonState) (sha : String)
    (h : cycleCommit env s = some sha) :
    s.status = DaemonStatus.running ∧ ∃ r, scan env.git s.lastCommit = .ok r ∧
      sha = r.currentSHA ∧
      (totalChanged r = 0 ∨ ∃ ds, loadWorkflows env = .ok ds ∧
        (validate ds (merge ds r (parsedViewsOf r)).json).ok = true) := by
  unfold cycleCommit at h
  by_cases hs : s.status = DaemonStatus.running
  · rw [if_pos hs] at h
    refine ⟨hs, ?_⟩
    cases hscan : scan env.git s.lastCommit with
    | error e => simp [hscan] at h
    | ok r =>
      simp only [hscan] at h
      refine ⟨r, rfl, ?_⟩
      by_cases h0 : totalChanged r = 0
      · rw [if_pos h0] at h
        exact ⟨(Option.some.inj h).symm, Or.inl h0⟩
      · rw [if_neg h0] at h
        cases hload : loadWorkflows env with
        | error e => simp [hload] at h
        | ok ds =>
          simp only [hload] at h
          by_cases hv : (validate ds (merge ds r (parsedViewsOf r)).json).ok = true
          · rw [if_pos hv] at h
            exact ⟨(Option.some.inj h).symm, Or.inr ⟨ds, rfl, hv⟩⟩
          · rw [if_neg hv] at h
            exact absurd h (by simp)
  · rw [if_neg hs] at h
    exact absurd h (by simp)

theorem option_toList_getLast (o : Option String) : o.toList.getLast? = o := by
  cases o <;> rfl

theorem option_or_assoc (a b c : Option String) :
    (a.or b).or c = a.or (b.or c) := by
  cases a <;> rfl

theorem runTrace_cursor (envs : List CycleEnv) :
    ∀ p : DaemonState × Option String,
      (runTrace envs p).2 = ((commitList envs p).getLast?).or p.2 := by
  induction envs with
  | nil => intro p; rfl
  | cons env rest ih =>
    intro p
    show (runTrace rest (tick env p)).2 =
      (((cycleCommit env p.1).toList ++ commitList rest (tick env p)).getLast?).or p.2
    rw [ih (tick env p), tick_cursor env p, List.getLast?_append,
      option_toList_getLast, option_or_assoc]

/-! ## Claim C2 -/

/-- C2: the persisted cursor tracks committed revisions exactly.  After any
cycle the cursor equals the revision the cycle committed or, when the cycle
committed none (skipped, scan or load throw, validation failure), stays
unchanged, the in-memory cursor field included; a committed revision can
only arise in a running state from a successful scan, is that scan's head
revision, and requires zero changes or a merge candidate that validate
accepted; hence over any run the cursor equals the last committed revision,
or its initial value when no cycle committed. -/
theorem c2_cursor_tracks_validated_revisions :
    (∀ (env : CycleEnv) (p : DaemonState × Option String),
      (tick env p).2 = (cycleCommit env p.1).or p.2) ∧
    (∀ (env : CycleEnv) (s : DaemonState) (store : Option String),
      cycleCommit env s = none →
      (tick env (s, store)).1.lastCommit = s.lastCommit ∧
      (tick env (s, store)).2 = store) ∧
    (∀ (env : CycleEnv) (s : DaemonState) (sha : String),
      cycleCommit env s = some sha →
      s.status = DaemonStatus.running ∧ ∃ r, scan env.git s.lastCommit = .ok r ∧
        sha = r.currentSHA ∧
        (totalChanged r = 0 ∨ ∃ ds, loadWorkflows env = .ok ds ∧
          (validate ds (merge ds r (parsedViewsOf r)).json).ok = true)) ∧
    (∀ (envs : List CycleEnv) (p : DaemonState × Option String),
      (runTrace envs p).2 = ((commitList envs p).getLast?).or p.2) := by
  refine ⟨tick_cursor, ?_, cycleCommit_eq_some, fun envs p => runTrace_cursor envs p⟩
  intro env s store h
  refine ⟨tick_lastCommit_uncommitted env s store h, ?_⟩
  rw [tick_cursor env (s, store)]
  show (cycleCommit env s).or store = store
  rw [h]
  rfl

/-- C2 (witness): a cycle whose repository probe throws commits nothing:
the cursor field and the persisted cursor both stay as they were. -/
theorem c2_cursor_tracks_validated_revisions_witness :
    (tick c2Env (c2State, some "z")).1.lastCommit = none ∧
    (tick c2Env (c2State, some "z")).2 = some "z" :=
  c2_cursor_tracks_validated_revisions.2.1 c2Env c2State (some "z") rfl


end Scrivner
